import Mathlib

/-!
# Storm render pass (`pxr/imaging/lib/hdSt/renderPass.cpp`)

A shallow embedding of `HdSt_RenderPass`: the per-frame `_PrepareCommandBuffer`
(collection change detection, rebuild or validation of the per-tag command
buffers, culling mode resolution) and the draw loop of `_Execute`.

Every call the render pass makes on a collaborator (the render index, a command
buffer, a perf counter) is recorded, in program order, in a trace of `Call`s, so
that statements of the form "X is called on every bucket" or "Y is never
queried" are statements about the returned trace.
-/

namespace HdSt

/-! ## Opaque collaborator types -/

/-- A render tag (`TfToken`). -/
abbrev TfToken := String

/-- A draw item (`HdDrawItem const*`), identified by a number. -/
abbrev HdDrawItem := Nat

/-- A cull matrix (`GfMatrix4d`); the render pass only forwards it. -/
abbrev GfMatrix4d := Nat

/-- The part of `HdRenderPassState` the render pass reads: `GetCullMatrix()`. -/
structure HdRenderPassState where
  cullMatrix : GfMatrix4d
  deriving DecidableEq, Repr

/-! ## Maps keyed by render tag

`_HdCommandBufferMap` and `HdRenderIndex::HdDrawItemView` are both maps from
`TfToken`; the declarations are in headers.  A map is a list of entries with
pairwise distinct keys; iteration (`begin()` .. `end()`) follows the list. -/

/-- A map from render tags to `β` with unique keys. -/
structure TagMap (β : Type) where
  entries : List (TfToken × β)
  nodup : (entries.map Prod.fst).Nodup

namespace TagMap

variable {β : Type}

/-- The empty map (also the result of `clear()`). -/
def empty : TagMap β := ⟨[], List.nodup_nil⟩

/-- The keys, in iteration order. -/
def keys (m : TagMap β) : List TfToken := m.entries.map Prod.fst

/-- The member `count(key)`: 1 if the key is present, else 0. -/
def count (m : TagMap β) (k : TfToken) : Nat := if k ∈ m.keys then 1 else 0

/-- The value stored under a key, if any. -/
def find? (m : TagMap β) (k : TfToken) : Option β := m.entries.lookup k

/-- The map part of `operator[]`: a key that is absent is inserted with a
default-constructed value; a key that is present leaves the map as it is. -/
def index [Inhabited β] (m : TagMap β) (k : TfToken) : TagMap β :=
  if h : k ∈ m.entries.map Prod.fst then m
  else ⟨m.entries ++ [(k, default)], by
    rw [List.map_append, List.nodup_append]
    refine ⟨m.nodup, by simp, ?_⟩
    intro a ha hb
    simp only [List.map_cons, List.map_nil, List.mem_singleton] at hb
    exact h (hb ▸ ha)⟩

/-- A member call through the reference returned by `operator[]`: the value
under `k` is replaced by `f` of it. -/
def modify (m : TagMap β) (k : TfToken) (f : β → β) : TagMap β :=
  ⟨m.entries.map (fun e => if e.1 = k then (e.1, f e.2) else e), by
    have h : (Prod.fst ∘ fun e : TfToken × β => if e.1 = k then (e.1, f e.2) else e)
        = Prod.fst := by
      funext e
      by_cases hk : e.1 = k <;> simp [hk]
    rw [List.map_map, h]
    exact m.nodup⟩

/-- The value behind the reference returned by `operator[]`. -/
def get [Inhabited β] (m : TagMap β) (k : TfToken) : β := (m.find? k).getD default

/-- A loop `for (it = begin(); it != end(); it++) it->second.f()`. -/
def mapVals (m : TagMap β) (f : β → β) : TagMap β :=
  ⟨m.entries.map (fun e => (e.1, f e.2)), by
    rw [List.map_map]
    exact m.nodup⟩

end TagMap

/-! ## The command buffer (bucket) -/

/-- Modelled from the spec: `HdCommandBuffer` is defined outside `renderPass.cpp`.
A bucket holds its draw items, its culled-item count (the number of items left
after culling), the shader-bindings version it was built with and the
visibility-change counter it was last synchronised against. -/
structure HdCommandBuffer where
  drawItems : List HdDrawItem
  culledSize : Nat
  shaderBindingsVersion : Int
  visChangeCount : Nat
  deriving DecidableEq, Repr

/-- Modelled from the spec: a default-constructed `HdCommandBuffer` holds no
item. -/
instance : Inhabited HdCommandBuffer := ⟨⟨[], 0, 0, 0⟩⟩

namespace HdCommandBuffer

/-- Modelled from the spec: `SwapDrawItems` (not in `renderPass.cpp`) transfers
the tag's draw items into the bucket along with the current shader-bindings
version. -/
def SwapDrawItems (b : HdCommandBuffer) (items : List HdDrawItem) (sbv : Int) :
    HdCommandBuffer :=
  { b with drawItems := items, shaderBindingsVersion := sbv }

/-- Modelled from the spec: `RebuildDrawBatchesIfNeeded` (not in
`renderPass.cpp`) re-encodes the batches when the bindings version moved; item
membership and culling results are left alone. -/
def RebuildDrawBatchesIfNeeded (b : HdCommandBuffer) (sbv : Int) : HdCommandBuffer :=
  if b.shaderBindingsVersion = sbv then b else { b with shaderBindingsVersion := sbv }

/-- Modelled from the spec: `SyncDrawItemVisibility` (not in `renderPass.cpp`)
marks every item of the bucket visible and records the visibility-change
counter. -/
def SyncDrawItemVisibility (b : HdCommandBuffer) (visChangeCount : Nat) :
    HdCommandBuffer :=
  { b with culledSize := b.drawItems.length, visChangeCount := visChangeCount }

/-- Modelled from the spec: `FrustumCull` (not in `renderPass.cpp`) runs the
frustum test of every item against the matrix and recomputes the culled-item
count.  The test itself is a parameter. -/
def FrustumCull (inFrustum : GfMatrix4d → HdDrawItem → Bool) (b : HdCommandBuffer)
    (m : GfMatrix4d) : HdCommandBuffer :=
  { b with culledSize := b.drawItems.countP (inFrustum m) }

/-- Modelled from the spec: `PrepareDraw` (not in `renderPass.cpp`) changes none
of the bucket attributes of the data model. -/
def PrepareDraw (b : HdCommandBuffer) (_ : HdRenderPassState) : HdCommandBuffer := b

/-- Modelled from the spec: `ExecuteDraw` (not in `renderPass.cpp`) changes none
of the bucket attributes of the data model. -/
def ExecuteDraw (b : HdCommandBuffer) (_ : HdRenderPassState) : HdCommandBuffer := b

/-- Modelled from the spec: `GetTotalSize`, the total item count. -/
def GetTotalSize (b : HdCommandBuffer) : Nat := b.drawItems.length

/-- Modelled from the spec: `GetCulledSize`, the culled-item count. -/
def GetCulledSize (b : HdCommandBuffer) : Nat := b.culledSize

end HdCommandBuffer

/-- The member type `_HdCommandBufferMap`. -/
abbrev _HdCommandBufferMap := TagMap HdCommandBuffer

/-- The type `HdRenderIndex::HdDrawItemView`: draw items by render tag. -/
abbrev HdDrawItemView := TagMap (List HdDrawItem)

/-! ## Collaborator calls and the per-frame environment -/

/-- A call made by the render pass on a collaborator.  A bucket is named by the
tag it is stored under. -/
inductive Call where
  /-- The statement `HD_PERF_COUNTER_INCR(HdPerfTokens->collectionsRefreshed)`. -/
  | perfCollectionsRefreshed
  /-- The query `GetRenderIndex()->GetDrawItems(collection)`. -/
  | GetDrawItems
  /-- The statement `_cmdBuffers.clear()`. -/
  | clear
  | SwapDrawItems (tag : TfToken) (items : List HdDrawItem) (sbv : Int)
  /-- The statement `HD_PERF_COUNTER_SET(HdTokens->totalItemCount, itemCount)`. -/
  | perfTotalItemCount (itemCount : Nat)
  | RebuildDrawBatchesIfNeeded (tag : TfToken) (sbv : Int)
  | SyncDrawItemVisibility (tag : TfToken) (visChangeCount : Nat)
  | FrustumCull (tag : TfToken) (m : GfMatrix4d)
  | PrepareDraw (tag : TfToken) (rps : HdRenderPassState)
  | ExecuteDraw (tag : TfToken) (rps : HdRenderPassState)
  deriving DecidableEq, Repr

/-- What `_PrepareCommandBuffer` reads from its surroundings in one frame. -/
structure Env where
  /-- The value `tracker.GetCollectionVersion(collection.GetName())`. -/
  collectionVersion : Int
  /-- The value `tracker.GetShaderBindingsVersion()`. -/
  shaderBindingsVersion : Int
  /-- The value `tracker.GetVisibilityChangeCount()`. -/
  visibilityChangeCount : Nat
  /-- The value `TfDebug::IsEnabled(HD_DISABLE_FRUSTUM_CULLING)`. -/
  disableFrustumCulling : Bool
  /-- The value `caps.multiDrawIndirectEnabled`. -/
  multiDrawIndirectEnabled : Bool
  /-- The value `Hd_IndirectDrawBatch::IsEnabledGPUFrustumCulling()`. -/
  gpuFrustumCulling : Bool
  /-- The value `TfDebug::IsEnabled(HD_FREEZE_CULL_FRUSTUM)`. -/
  freezeCullFrustum : Bool
  /-- What `GetRenderIndex()->GetDrawItems(collection)` returns when asked. -/
  drawItems : HdDrawItemView
  /-- The frustum test used by `HdCommandBuffer::FrustumCull`. -/
  inFrustum : GfMatrix4d → HdDrawItem → Bool

/-! ## The render pass -/

/-- The members of `HdSt_RenderPass`. -/
structure HdSt_RenderPass where
  _lastCullingDisabledState : Bool
  _collectionVersion : Int
  _collectionChanged : Bool
  _cmdBuffers : _HdCommandBufferMap

namespace HdSt_RenderPass

/-- The constructor `HdSt_RenderPass::HdSt_RenderPass`. -/
def new : HdSt_RenderPass :=
  { _lastCullingDisabledState := false
    _collectionVersion := 0
    _collectionChanged := false
    _cmdBuffers := TagMap.empty }

/-- The method `HdSt_RenderPass::_MarkCollectionDirty`. -/
def _MarkCollectionDirty (self : HdSt_RenderPass) : HdSt_RenderPass :=
  { self with _collectionChanged := true, _collectionVersion := 0 }

/-- The loop over `items` in the rebuild branch of `_PrepareCommandBuffer`:
`_cmdBuffers[it->first].SwapDrawItems(&it->second, shaderBindingsVersion);
 itemCount += _cmdBuffers[it->first].GetTotalSize();`. -/
def swapLoop (shaderBindingsVersion : Int) :
    List (TfToken × List HdDrawItem) → _HdCommandBufferMap → Nat →
      _HdCommandBufferMap × Nat × List Call
  | [], cmdBuffers, itemCount => (cmdBuffers, itemCount, [])
  | (tag, items) :: rest, cmdBuffers, itemCount =>
    let cmdBuffers1 := (cmdBuffers.index tag).modify tag
      (fun b => b.SwapDrawItems items shaderBindingsVersion)
    let cmdBuffers2 := cmdBuffers1.index tag
    let itemCount1 := itemCount + (cmdBuffers2.get tag).GetTotalSize
    let r := swapLoop shaderBindingsVersion rest cmdBuffers2 itemCount1
    (r.1, r.2.1, Call.SwapDrawItems tag items shaderBindingsVersion :: r.2.2)

/-- A loop over `_cmdBuffers` calling one member on every bucket: the new map
and the calls made, in iteration order. -/
def forEachBucket (cmdBuffers : _HdCommandBufferMap)
    (f : HdCommandBuffer → HdCommandBuffer) (call : TfToken → Call) :
    _HdCommandBufferMap × List Call :=
  (cmdBuffers.mapVals f, cmdBuffers.keys.map call)

/-- The method `HdSt_RenderPass::_PrepareCommandBuffer`. -/
def _PrepareCommandBuffer (self : HdSt_RenderPass) (env : Env)
    (renderPassState : HdRenderPassState) : HdSt_RenderPass × List Call :=
  let collectionVersion := env.collectionVersion
  let shaderBindingsVersion := env.shaderBindingsVersion
  let skipCulling := env.disableFrustumCulling
    || (env.multiDrawIndirectEnabled && env.gpuFrustumCulling)
  let cameraChanged := true
  let extentsChanged := true
  let collectionChanged := self._collectionChanged
    || (self._collectionVersion != collectionVersion)
  let cullingStateJustChanged := skipCulling != self._lastCullingDisabledState
  let self1 := { self with _lastCullingDisabledState := skipCulling }
  let freezeCulling :=
    if collectionChanged || cullingStateJustChanged then false
    else env.freezeCullFrustum
  -- Now either the collection is dirty or culling needs to be applied.
  let structural : HdSt_RenderPass × List Call :=
    if collectionChanged then
      let items := env.drawItems
      let r := swapLoop shaderBindingsVersion items.entries TagMap.empty 0
      ({ self1 with
          _cmdBuffers := r.1
          _collectionVersion := collectionVersion
          _collectionChanged := false },
        [Call.perfCollectionsRefreshed, Call.GetDrawItems, Call.clear] ++ r.2.2
          ++ [Call.perfTotalItemCount r.2.1])
    else
      let r := forEachBucket self1._cmdBuffers
        (fun b => b.RebuildDrawBatchesIfNeeded shaderBindingsVersion)
        (fun tag => Call.RebuildDrawBatchesIfNeeded tag shaderBindingsVersion)
      ({ self1 with _cmdBuffers := r.1 }, r.2)
  let self2 := structural.1
  let culling : HdSt_RenderPass × List Call :=
    if skipCulling then
      let r := forEachBucket self2._cmdBuffers
        (fun b => b.SyncDrawItemVisibility env.visibilityChangeCount)
        (fun tag => Call.SyncDrawItemVisibility tag env.visibilityChangeCount)
      ({ self2 with _cmdBuffers := r.1 }, r.2)
    else if (!freezeCulling)
        && (collectionChanged || cameraChanged || extentsChanged) then
      let r := forEachBucket self2._cmdBuffers
        (fun b => b.FrustumCull env.inFrustum renderPassState.cullMatrix)
        (fun tag => Call.FrustumCull tag renderPassState.cullMatrix)
      ({ self2 with _cmdBuffers := r.1 }, r.2)
    else (self2, [])
  (culling.1, structural.2 ++ culling.2)

/-- The draw loop of `_Execute` for a non-empty `renderTags`: a tag without a
command buffer is skipped, any other has `PrepareDraw` then `ExecuteDraw` called
through `_cmdBuffers[*tag]`. -/
def drawTags (renderPassState : HdRenderPassState) :
    List TfToken → _HdCommandBufferMap → _HdCommandBufferMap × List Call
  | [], cmdBuffers => (cmdBuffers, [])
  | tag :: rest, cmdBuffers =>
    if cmdBuffers.count tag == 0 then drawTags renderPassState rest cmdBuffers
    else
      let cmdBuffers1 := (cmdBuffers.index tag).modify tag
        (fun b => b.PrepareDraw renderPassState)
      let cmdBuffers2 := (cmdBuffers1.index tag).modify tag
        (fun b => b.ExecuteDraw renderPassState)
      let r := drawTags renderPassState rest cmdBuffers2
      (r.1, Call.PrepareDraw tag renderPassState
              :: Call.ExecuteDraw tag renderPassState :: r.2)

/-- The draw loop of `_Execute` for an empty `renderTags`: every bucket, in
iteration order, has `PrepareDraw` then `ExecuteDraw` called. -/
def drawAll (renderPassState : HdRenderPassState) (cmdBuffers : _HdCommandBufferMap) :
    _HdCommandBufferMap × List Call :=
  (cmdBuffers.mapVals (fun b => (b.PrepareDraw renderPassState).ExecuteDraw renderPassState),
    cmdBuffers.keys.flatMap (fun tag =>
      [Call.PrepareDraw tag renderPassState, Call.ExecuteDraw tag renderPassState]))

/-- The part of `_Execute` after the call of `_PrepareCommandBuffer`. -/
def drawPhase (self : HdSt_RenderPass) (renderPassState : HdRenderPassState)
    (renderTags : List TfToken) : HdSt_RenderPass × List Call :=
  let r := if renderTags.isEmpty then drawAll renderPassState self._cmdBuffers
    else drawTags renderPassState renderTags self._cmdBuffers
  ({ self with _cmdBuffers := r.1 }, r.2)

/-- The method `HdSt_RenderPass::_Execute`: the prepared render pass and the
calls of the preparation followed by those of the draw loop. -/
def _Execute (self : HdSt_RenderPass) (env : Env)
    (renderPassState : HdRenderPassState) (renderTags : List TfToken) :
    HdSt_RenderPass × List Call :=
  let p := self._PrepareCommandBuffer env renderPassState
  let d := p.1.drawPhase renderPassState renderTags
  (d.1, p.2 ++ d.2)

/-! ## Named conditions used in the statements -/

/-- The local `skipCulling` of `_PrepareCommandBuffer`. -/
def skipCulling (env : Env) : Bool :=
  env.disableFrustumCulling || (env.multiDrawIndirectEnabled && env.gpuFrustumCulling)

/-- The local `collectionChanged` of `_PrepareCommandBuffer`. -/
def collectionChanged (self : HdSt_RenderPass) (env : Env) : Bool :=
  self._collectionChanged || (self._collectionVersion != env.collectionVersion)

/-- A trace is that of a rebuild when the map was cleared and `GetDrawItems` was
queried. -/
def rebuilds (tr : List Call) : Bool :=
  decide (Call.clear ∈ tr) && decide (Call.GetDrawItems ∈ tr)

/-- Whether a call is a `SwapDrawItems` call. -/
def isSwapCall : Call → Bool
  | Call.SwapDrawItems _ _ _ => true
  | _ => false

/-- The draw items a map holds, by tag. -/
def bucketItems (cmdBuffers : _HdCommandBufferMap) : List (TfToken × List HdDrawItem) :=
  cmdBuffers.entries.map (fun e => (e.1, e.2.drawItems))

/-- The outcome of a `Prepare` (the render pass and the trace) is a rebuild of
the command-buffer map from a view: the map was cleared, `GetDrawItems` was
queried, the `SwapDrawItems` calls made are, up to order, one per entry of the
view with that entry's tag and items and the given shader-bindings version, and
the resulting map holds, up to order, exactly the view's tags, each with the
view's items (so nothing from before the rebuild is left). -/
def rebuiltFrom (view : HdDrawItemView) (sbv : Int) (p : HdSt_RenderPass × List Call) :
    Prop :=
  Call.clear ∈ p.2 ∧ Call.GetDrawItems ∈ p.2
    ∧ (p.2.filter isSwapCall).Perm (view.entries.map (fun e => Call.SwapDrawItems e.1 e.2 sbv))
    ∧ (bucketItems p.1._cmdBuffers).Perm view.entries

instance (view : HdDrawItemView) (sbv : Int) (p : HdSt_RenderPass × List Call) :
    Decidable (rebuiltFrom view sbv p) := by
  unfold rebuiltFrom
  infer_instance

/-- The outcome of a `Prepare` on `self` is no rebuild: the map was not cleared,
`GetDrawItems` was not queried, no `SwapDrawItems` call was made, and every
bucket is still there, in place, with the items it had. -/
def notRebuilt (self : HdSt_RenderPass) (p : HdSt_RenderPass × List Call) : Prop :=
  Call.clear ∉ p.2 ∧ Call.GetDrawItems ∉ p.2
    ∧ p.2.filter isSwapCall = []
    ∧ bucketItems p.1._cmdBuffers = bucketItems self._cmdBuffers

instance (self : HdSt_RenderPass) (p : HdSt_RenderPass × List Call) :
    Decidable (notRebuilt self p) := by
  unfold notRebuilt
  infer_instance

/-- The total item count reported: the sum of `GetTotalSize` over the buckets. -/
def totalSize (cmdBuffers : _HdCommandBufferMap) : Nat :=
  (cmdBuffers.entries.map (fun e => e.2.GetTotalSize)).sum

/-- One frame of the owner: an optional `_MarkCollectionDirty`, then a
`_PrepareCommandBuffer` in the given environment. -/
structure Frame where
  markDirty : Bool
  env : Env
  renderPassState : HdRenderPassState

/-- The bookkeeping of the change-detection property: the version stored by the
last rebuild and whether `_MarkCollectionDirty` was called since. -/
structure History where
  lastRebuildVersion : Int
  dirtySince : Bool

/-- Runs the frames on the render pass and checks, at every `Prepare`, that it
rebuilds the map from the view of the frame (`rebuiltFrom`) exactly when the
observed version differs from the one stored by the last rebuild or
`_MarkCollectionDirty` was called since the last rebuild, and that it leaves the
map unrebuilt (`notRebuilt`) exactly when neither is the case.  The history is
advanced by what the code did: a `Prepare` that rebuilt the map stores the
observed version and forgets the dirty calls. -/
def rebuildsAsSpecified (self : HdSt_RenderPass) (h : History) : List Frame → Prop
  | [] => True
  | f :: fs =>
    let self1 := if f.markDirty then self._MarkCollectionDirty else self
    let h1 : History := if f.markDirty then { h with dirtySince := true } else h
    let p := self1._PrepareCommandBuffer f.env f.renderPassState
    (rebuiltFrom f.env.drawItems f.env.shaderBindingsVersion p ↔
        (f.env.collectionVersion ≠ h1.lastRebuildVersion ∨ h1.dirtySince = true))
      ∧ (notRebuilt self1 p ↔
        ¬ (f.env.collectionVersion ≠ h1.lastRebuildVersion ∨ h1.dirtySince = true))
      ∧ rebuildsAsSpecified p.1
          (if rebuiltFrom f.env.drawItems f.env.shaderBindingsVersion p
            then ⟨f.env.collectionVersion, false⟩ else h1) fs

/-- The three culling modes of a frame. -/
inductive CullingMode where
  | Skip
  | Frozen
  | Active
  deriving DecidableEq, Repr

/-- The culling mode `_PrepareCommandBuffer` resolves: `Skip` when `skipCulling`
holds, else `Frozen` when `freezeCulling` is still true after the bypass
`if (collectionChanged || cullingStateJustChanged) freezeCulling = false`, else
`Active`. -/
def cullingMode (self : HdSt_RenderPass) (env : Env) : CullingMode :=
  if skipCulling env then CullingMode.Skip
  else if env.freezeCullFrustum
      && !(collectionChanged self env
            || (skipCulling env != self._lastCullingDisabledState)) then CullingMode.Frozen
  else CullingMode.Active

/-- Whether a call is one of the two culling calls on a bucket. -/
def isCullingCall : Call → Bool
  | Call.SyncDrawItemVisibility _ _ => true
  | Call.FrustumCull _ _ => true
  | _ => false

/-- Whether a call is a call on a bucket made by the culling or the draw phase. -/
def isCullOrDrawCall : Call → Bool
  | Call.SyncDrawItemVisibility _ _ => true
  | Call.FrustumCull _ _ => true
  | Call.PrepareDraw _ _ => true
  | Call.ExecuteDraw _ _ => true
  | _ => false

/-- The culling calls of a frame in a given mode, over the keys of the map. -/
def cullCalls (mode : CullingMode) (env : Env) (rps : HdRenderPassState)
    (keys : List TfToken) : List Call :=
  match mode with
  | CullingMode.Skip =>
    keys.map (fun tag => Call.SyncDrawItemVisibility tag env.visibilityChangeCount)
  | CullingMode.Active => keys.map (fun tag => Call.FrustumCull tag rps.cullMatrix)
  | CullingMode.Frozen => []

/-- The number of draw items a view holds over all its tags. -/
def viewItemCount (view : HdDrawItemView) : Nat :=
  (view.entries.map (fun e => e.2.length)).sum

end HdSt_RenderPass

/-! ## Sample data -/

/-- A draw item view with two tags. -/
def sampleView : HdDrawItemView := ⟨[("A", [1, 2]), ("B", [3])], by decide⟩

/-- A frame environment observing collection version 1, with CPU culling. -/
def sampleEnv : Env :=
  { collectionVersion := 1
    shaderBindingsVersion := 7
    visibilityChangeCount := 3
    disableFrustumCulling := false
    multiDrawIndirectEnabled := false
    gpuFrustumCulling := false
    freezeCullFrustum := false
    drawItems := sampleView
    inFrustum := fun m item => item % 2 == m }

/-- The same environment with `HD_DISABLE_FRUSTUM_CULLING` set. -/
def sampleEnvSkip : Env := { sampleEnv with disableFrustumCulling := true }

/-- The same environment with `HD_FREEZE_CULL_FRUSTUM` set. -/
def sampleEnvFreeze : Env := { sampleEnv with freezeCullFrustum := true }

/-- A render pass state. -/
def sampleState : HdRenderPassState := ⟨0⟩

/-- A render pass after one frame in `sampleEnv`: buckets `A` and `B`. -/
def samplePass : HdSt_RenderPass :=
  (HdSt_RenderPass.new._PrepareCommandBuffer sampleEnv sampleState).1

/-- A draw item view with one tag and no item under it. -/
def emptyTagView : HdDrawItemView := ⟨[("A", [])], by decide⟩

/-- A frame environment whose collection yields `emptyTagView`. -/
def emptyTagEnv : Env := { sampleEnv with drawItems := emptyTagView }

/-- A frame environment whose collection yields no tag at all. -/
def noTagEnv : Env := { sampleEnv with drawItems := TagMap.empty }

/-- The items of `sampleView` plus one item under the new tag `glass`. -/
def glassView : HdDrawItemView :=
  ⟨[("A", [1, 2]), ("B", [3]), ("glass", [9])], by decide⟩

/-- A frame environment observing collection version 2 and `glassView`. -/
def glassEnv : Env := { sampleEnv with collectionVersion := 2, drawItems := glassView }

/-- A frame environment observing collection version 0. -/
def sampleEnvZero : Env := { sampleEnv with collectionVersion := 0 }

/-! ## Lemmas on tag maps -/

namespace TagMap

variable {β : Type}

theorem keys_mapVals (m : TagMap β) (f : β → β) : (m.mapVals f).keys = m.keys := by
  simp [mapVals, keys, List.map_map, Function.comp_def]

theorem keys_modify (m : TagMap β) (k : TfToken) (f : β → β) :
    (m.modify k f).keys = m.keys := by
  unfold modify keys
  simp only [List.map_map]
  apply List.map_congr_left
  intro e _
  by_cases hk : e.1 = k <;> simp [hk]

theorem index_of_mem [Inhabited β] (m : TagMap β) (k : TfToken) (h : k ∈ m.keys) :
    m.index k = m := by
  unfold keys at h
  unfold index
  rw [dif_pos h]

theorem entries_index_of_not_mem [Inhabited β] (m : TagMap β) (k : TfToken)
    (h : k ∉ m.keys) : (m.index k).entries = m.entries ++ [(k, default)] := by
  unfold keys at h
  unfold index
  rw [dif_neg h]

theorem mem_keys_index [Inhabited β] (m : TagMap β) (k : TfToken) :
    k ∈ (m.index k).keys := by
  by_cases h : k ∈ m.keys
  · rw [index_of_mem m k h]; exact h
  · simp [keys, entries_index_of_not_mem m k h]

theorem map_modify_of_not_mem (l : List (TfToken × β)) (k : TfToken) (f : β → β)
    (h : k ∉ l.map Prod.fst) :
    l.map (fun e => if e.1 = k then (e.1, f e.2) else e) = l := by
  induction l with
  | nil => rfl
  | cons e l ih =>
    simp only [List.map_cons, List.mem_cons, not_or] at h
    have h1 : ¬ e.1 = k := fun hh => h.1 hh.symm
    simp [h1, ih h.2]

theorem lookup_append_new (l : List (TfToken × β)) (k : TfToken) (b : β)
    (h : k ∉ l.map Prod.fst) : (l ++ [(k, b)]).lookup k = some b := by
  induction l with
  | nil => simp [List.lookup]
  | cons e l ih =>
    simp only [List.map_cons, List.mem_cons, not_or] at h
    obtain ⟨k1, b1⟩ := e
    have h1 : (k == k1) = false := by simpa using h.1
    simp [List.lookup, h1, ih h.2]

theorem lookup_map_snd {γ : Type} (l : List (TfToken × β)) (f : β → γ) (k : TfToken) :
    (l.map (fun e => (e.1, f e.2))).lookup k = (l.lookup k).map f := by
  induction l with
  | nil => rfl
  | cons e l ih =>
    obtain ⟨k1, b1⟩ := e
    simp only [List.map_cons, List.lookup]
    cases k == k1 <;> simp [ih]

theorem find?_mapVals (m : TagMap β) (f : β → β) (k : TfToken) :
    (m.mapVals f).find? k = (m.find? k).map f :=
  lookup_map_snd m.entries f k

theorem mem_of_lookup (l : List (TfToken × β)) (k : TfToken) (b : β)
    (h : l.lookup k = some b) : (k, b) ∈ l := by
  induction l with
  | nil => simp [List.lookup] at h
  | cons e l ih =>
    obtain ⟨k1, b1⟩ := e
    simp only [List.lookup] at h
    cases hk : k == k1
    · simp only [hk] at h
      exact List.mem_cons_of_mem _ (ih h)
    · simp only [hk, Option.some.injEq] at h
      have hk1 : k = k1 := by simpa using hk
      subst hk1; subst h
      exact List.mem_cons_self _ _

theorem lookup_of_mem (l : List (TfToken × β)) (hnd : (l.map Prod.fst).Nodup)
    (k : TfToken) (b : β) (h : (k, b) ∈ l) : l.lookup k = some b := by
  induction l with
  | nil => simp at h
  | cons e l ih =>
    obtain ⟨k1, b1⟩ := e
    simp only [List.map_cons, List.nodup_cons] at hnd
    simp only [List.mem_cons, Prod.mk.injEq] at h
    rcases h with ⟨h1, h2⟩ | h
    · subst h1; subst h2; simp [List.lookup]
    · have hne : (k == k1) = false := by
        simp only [beq_eq_false_iff_ne, ne_eq]
        intro hk
        apply hnd.1
        rw [← hk]
        exact List.mem_map_of_mem Prod.fst h
      simp [List.lookup, hne, ih hnd.2 h]

theorem nodup_keys (m : TagMap β) : m.keys.Nodup := m.nodup

/-- Two entry lists with distinct keys that are permutations of each other hold
the same value under every key. -/
theorem lookup_perm (l1 l2 : List (TfToken × β)) (hp : l1.Perm l2)
    (hnd : (l1.map Prod.fst).Nodup) (k : TfToken) : l1.lookup k = l2.lookup k := by
  have hnd2 : (l2.map Prod.fst).Nodup := ((hp.map Prod.fst).nodup_iff).1 hnd
  cases h1 : l1.lookup k with
  | some b =>
    exact (lookup_of_mem l2 hnd2 k b (hp.mem_iff.1 (mem_of_lookup l1 k b h1))).symm
  | none =>
    cases h2 : l2.lookup k with
    | none => rfl
    | some b =>
      have := lookup_of_mem l1 hnd k b (hp.mem_iff.2 (mem_of_lookup l2 k b h2))
      rw [h1] at this
      exact absurd this (by simp)

theorem nodup_entries (m : TagMap β) : m.entries.Nodup :=
  List.Nodup.of_map Prod.fst m.nodup

end TagMap

/-! ## Lemmas on call traces -/

/-- A loop over distinct tags calls each tag once. -/
theorem count_map_call (keys : List TfToken) (hnd : keys.Nodup) (call : TfToken → Call)
    (hinj : Function.Injective call) (tag : TfToken) (h : tag ∈ keys) :
    (keys.map call).count (call tag) = 1 :=
  List.count_eq_one_of_mem (List.Nodup.map hinj hnd) (List.mem_map_of_mem call h)

/-- A loop making calls of one kind makes no call of another. -/
theorem count_map_call_of_ne {α : Type} (l : List α) (call : α → Call) (c : Call)
    (h : ∀ a, call a ≠ c) : (l.map call).count c = 0 := by
  apply List.count_eq_zero_of_not_mem
  intro hmem
  obtain ⟨a, _, ha⟩ := List.mem_map.1 hmem
  exact h a ha

/-! ## Lemmas on the loops of the render pass -/

namespace HdSt_RenderPass

theorem swapLoop_trace (sbv : Int) (l : List (TfToken × List HdDrawItem)) :
    ∀ (m : _HdCommandBufferMap) (n : Nat),
      (swapLoop sbv l m n).2.2 = l.map (fun e => Call.SwapDrawItems e.1 e.2 sbv) := by
  induction l with
  | nil => intro m n; rfl
  | cons e l ih =>
    intro m n
    obtain ⟨tag, items⟩ := e
    simp only [swapLoop, List.map_cons, ih]

theorem swapLoop_fresh (sbv : Int) (l : List (TfToken × List HdDrawItem)) :
    ∀ (m : _HdCommandBufferMap) (n : Nat), (l.map Prod.fst).Nodup →
      (∀ k ∈ l.map Prod.fst, k ∉ m.keys) →
      (swapLoop sbv l m n).1.entries = m.entries ++ l.map (fun e =>
          (e.1, (default : HdCommandBuffer).SwapDrawItems e.2 sbv))
      ∧ (swapLoop sbv l m n).2.1 = n + (l.map (fun e => e.2.length)).sum := by
  induction l with
  | nil => intro m n _ _; simp [swapLoop]
  | cons e l ih =>
    intro m n hnd hfresh
    obtain ⟨tag, items⟩ := e
    simp only [List.map_cons, List.nodup_cons, List.mem_cons, forall_eq_or_imp] at hnd hfresh
    have hk : tag ∉ m.keys := hfresh.1
    have hk1 : tag ∉ m.entries.map Prod.fst := hk
    -- the map after the first subscript and the member call
    have e1 : ((m.index tag).modify tag
        (fun b => b.SwapDrawItems items sbv)).entries
          = m.entries ++ [(tag, (default : HdCommandBuffer).SwapDrawItems items sbv)] := by
      simp only [TagMap.modify, TagMap.entries_index_of_not_mem m tag hk, List.map_append]
      rw [TagMap.map_modify_of_not_mem m.entries tag (fun b => b.SwapDrawItems items sbv) hk1]
      simp
    have hmem : tag ∈ ((m.index tag).modify tag
        (fun b => b.SwapDrawItems items sbv)).keys := by
      rw [TagMap.keys_modify]; exact TagMap.mem_keys_index m tag
    have hfresh2 : ∀ k ∈ l.map Prod.fst, k ∉ ((m.index tag).modify tag
        (fun b => b.SwapDrawItems items sbv)).keys := by
      intro k hkl
      rw [TagMap.keys, e1]
      simp only [List.map_append, List.map_cons, List.map_nil, List.mem_append,
        List.mem_singleton, not_or]
      refine ⟨hfresh.2 k hkl, ?_⟩
      intro hkt
      exact hnd.1 (hkt ▸ hkl)
    have hget : (((m.index tag).modify tag
        (fun b => b.SwapDrawItems items sbv)).get tag).GetTotalSize = items.length := by
      simp only [TagMap.get, TagMap.find?, e1, TagMap.lookup_append_new m.entries tag _ hk1]
      rfl
    simp only [swapLoop, TagMap.index_of_mem _ tag hmem, hget]
    obtain ⟨ih1, ih2⟩ := ih _ (n + items.length) hnd.2 hfresh2
    rw [ih1, ih2, e1]
    constructor
    · simp
    · simp [Nat.add_assoc]

/-- The rebuild loop run on a cleared map, for a draw item view. -/
theorem swapLoop_view (sbv : Int) (items : HdDrawItemView) :
    (swapLoop sbv items.entries TagMap.empty 0).1.entries = items.entries.map (fun e =>
          (e.1, (default : HdCommandBuffer).SwapDrawItems e.2 sbv))
      ∧ (swapLoop sbv items.entries TagMap.empty 0).2.1
          = (items.entries.map (fun e => e.2.length)).sum := by
  have h := swapLoop_fresh sbv items.entries TagMap.empty 0 items.nodup
    (by intro k _; simp [TagMap.keys, TagMap.empty])
  simpa [TagMap.empty] using h

/-- The branch of `_PrepareCommandBuffer` that rebuilds and skips culling. -/
theorem prepare_changed_skip (self : HdSt_RenderPass) (env : Env) (rps : HdRenderPassState)
    (hc : collectionChanged self env = true) (hs : skipCulling env = true) :
    self._PrepareCommandBuffer env rps =
      ({ _lastCullingDisabledState := true
         _collectionVersion := env.collectionVersion
         _collectionChanged := false
         _cmdBuffers :=
           (swapLoop env.shaderBindingsVersion env.drawItems.entries TagMap.empty 0).1.mapVals
             (fun b => b.SyncDrawItemVisibility env.visibilityChangeCount) },
        [Call.perfCollectionsRefreshed, Call.GetDrawItems, Call.clear]
          ++ (swapLoop env.shaderBindingsVersion env.drawItems.entries TagMap.empty 0).2.2
          ++ [Call.perfTotalItemCount
                (swapLoop env.shaderBindingsVersion env.drawItems.entries TagMap.empty 0).2.1]
          ++ (swapLoop env.shaderBindingsVersion env.drawItems.entries TagMap.empty 0).1.keys.map
               (fun tag => Call.SyncDrawItemVisibility tag env.visibilityChangeCount)) := by
  unfold collectionChanged at hc
  unfold skipCulling at hs
  simp only [_PrepareCommandBuffer, forEachBucket, hc, hs, if_true]

/-- The branch of `_PrepareCommandBuffer` that rebuilds and culls. -/
theorem prepare_changed_cull (self : HdSt_RenderPass) (env : Env) (rps : HdRenderPassState)
    (hc : collectionChanged self env = true) (hs : skipCulling env = false) :
    self._PrepareCommandBuffer env rps =
      ({ _lastCullingDisabledState := false
         _collectionVersion := env.collectionVersion
         _collectionChanged := false
         _cmdBuffers :=
           (swapLoop env.shaderBindingsVersion env.drawItems.entries TagMap.empty 0).1.mapVals
             (fun b => b.FrustumCull env.inFrustum rps.cullMatrix) },
        [Call.perfCollectionsRefreshed, Call.GetDrawItems, Call.clear]
          ++ (swapLoop env.shaderBindingsVersion env.drawItems.entries TagMap.empty 0).2.2
          ++ [Call.perfTotalItemCount
                (swapLoop env.shaderBindingsVersion env.drawItems.entries TagMap.empty 0).2.1]
          ++ (swapLoop env.shaderBindingsVersion env.drawItems.entries TagMap.empty 0).1.keys.map
               (fun tag => Call.FrustumCull tag rps.cullMatrix)) := by
  unfold collectionChanged at hc
  unfold skipCulling at hs
  simp [_PrepareCommandBuffer, forEachBucket, hc, hs]

/-- The branch of `_PrepareCommandBuffer` that validates and skips culling. -/
theorem prepare_same_skip (self : HdSt_RenderPass) (env : Env) (rps : HdRenderPassState)
    (hc : collectionChanged self env = false) (hs : skipCulling env = true) :
    self._PrepareCommandBuffer env rps =
      ({ self with
         _lastCullingDisabledState := true
         _cmdBuffers :=
           (self._cmdBuffers.mapVals
             (fun b => b.RebuildDrawBatchesIfNeeded env.shaderBindingsVersion)).mapVals
             (fun b => b.SyncDrawItemVisibility env.visibilityChangeCount) },
        self._cmdBuffers.keys.map
            (fun tag => Call.RebuildDrawBatchesIfNeeded tag env.shaderBindingsVersion)
          ++ self._cmdBuffers.keys.map
               (fun tag => Call.SyncDrawItemVisibility tag env.visibilityChangeCount)) := by
  unfold collectionChanged at hc
  unfold skipCulling at hs
  simp [_PrepareCommandBuffer, forEachBucket, hc, hs, TagMap.keys_mapVals]

/-- The branch of `_PrepareCommandBuffer` that validates and culls. -/
theorem prepare_same_cull (self : HdSt_RenderPass) (env : Env) (rps : HdRenderPassState)
    (hc : collectionChanged self env = false) (hs : skipCulling env = false)
    (hf : env.freezeCullFrustum = false ∨ self._lastCullingDisabledState = true) :
    self._PrepareCommandBuffer env rps =
      ({ self with
         _lastCullingDisabledState := false
         _cmdBuffers :=
           (self._cmdBuffers.mapVals
             (fun b => b.RebuildDrawBatchesIfNeeded env.shaderBindingsVersion)).mapVals
             (fun b => b.FrustumCull env.inFrustum rps.cullMatrix) },
        self._cmdBuffers.keys.map
            (fun tag => Call.RebuildDrawBatchesIfNeeded tag env.shaderBindingsVersion)
          ++ self._cmdBuffers.keys.map
               (fun tag => Call.FrustumCull tag rps.cullMatrix)) := by
  unfold collectionChanged at hc
  unfold skipCulling at hs
  rcases hf with hf | hf <;>
    simp [_PrepareCommandBuffer, forEachBucket, hc, hs, hf, TagMap.keys_mapVals]

/-- The branch of `_PrepareCommandBuffer` that validates and keeps the frozen
culling results. -/
theorem prepare_same_frozen (self : HdSt_RenderPass) (env : Env) (rps : HdRenderPassState)
    (hc : collectionChanged self env = false) (hs : skipCulling env = false)
    (hf : env.freezeCullFrustum = true) (hl : self._lastCullingDisabledState = false) :
    self._PrepareCommandBuffer env rps =
      ({ self with
         _lastCullingDisabledState := false
         _cmdBuffers :=
           self._cmdBuffers.mapVals
             (fun b => b.RebuildDrawBatchesIfNeeded env.shaderBindingsVersion) },
        self._cmdBuffers.keys.map
            (fun tag => Call.RebuildDrawBatchesIfNeeded tag env.shaderBindingsVersion)) := by
  unfold collectionChanged at hc
  unfold skipCulling at hs
  simp [_PrepareCommandBuffer, forEachBucket, hc, hs, hf, hl]

theorem collectionChanged_eq_false (self : HdSt_RenderPass) (env : Env) :
    collectionChanged self env = false ↔
      self._collectionChanged = false ∧ self._collectionVersion = env.collectionVersion := by
  simp [collectionChanged]

/-- Whether the frozen branch is taken, given no rebuild and no skip. -/
theorem frozen_or_cull (self : HdSt_RenderPass) (env : Env) :
    (env.freezeCullFrustum = false ∨ self._lastCullingDisabledState = true)
      ∨ (env.freezeCullFrustum = true ∧ self._lastCullingDisabledState = false) := by
  cases env.freezeCullFrustum <;> cases self._lastCullingDisabledState <;> simp

/-- A `Prepare` rebuilds exactly when its local `collectionChanged` is true. -/
theorem rebuilds_prepare (self : HdSt_RenderPass) (env : Env) (rps : HdRenderPassState) :
    rebuilds (self._PrepareCommandBuffer env rps).2 = collectionChanged self env := by
  cases hc : collectionChanged self env <;> cases hs : skipCulling env
  · rcases frozen_or_cull self env with hf | ⟨hf, hl⟩
    · rw [prepare_same_cull self env rps hc hs hf]; simp [rebuilds]
    · rw [prepare_same_frozen self env rps hc hs hf hl]; simp [rebuilds]
  · rw [prepare_same_skip self env rps hc hs]; simp [rebuilds]
  · rw [prepare_changed_cull self env rps hc hs]; simp [rebuilds]
  · rw [prepare_changed_skip self env rps hc hs]; simp [rebuilds]

theorem prepare_collectionVersion (self : HdSt_RenderPass) (env : Env)
    (rps : HdRenderPassState) :
    (self._PrepareCommandBuffer env rps).1._collectionVersion = env.collectionVersion := by
  cases hc : collectionChanged self env <;> cases hs : skipCulling env
  · have hv := ((collectionChanged_eq_false self env).1 hc).2
    rcases frozen_or_cull self env with hf | ⟨hf, hl⟩
    · rw [prepare_same_cull self env rps hc hs hf]; exact hv
    · rw [prepare_same_frozen self env rps hc hs hf hl]; exact hv
  · rw [prepare_same_skip self env rps hc hs]
    exact ((collectionChanged_eq_false self env).1 hc).2
  · rw [prepare_changed_cull self env rps hc hs]
  · rw [prepare_changed_skip self env rps hc hs]

theorem prepare_collectionChanged (self : HdSt_RenderPass) (env : Env)
    (rps : HdRenderPassState) :
    (self._PrepareCommandBuffer env rps).1._collectionChanged = false := by
  cases hc : collectionChanged self env <;> cases hs : skipCulling env
  · have hv := ((collectionChanged_eq_false self env).1 hc).1
    rcases frozen_or_cull self env with hf | ⟨hf, hl⟩
    · rw [prepare_same_cull self env rps hc hs hf]; exact hv
    · rw [prepare_same_frozen self env rps hc hs hf hl]; exact hv
  · rw [prepare_same_skip self env rps hc hs]
    exact ((collectionChanged_eq_false self env).1 hc).1
  · rw [prepare_changed_cull self env rps hc hs]
  · rw [prepare_changed_skip self env rps hc hs]

theorem count_eq_zero_iff_not_mem_keys (m : _HdCommandBufferMap) (tag : TfToken) :
    (m.count tag == 0) = true ↔ tag ∉ m.keys := by
  unfold TagMap.count
  by_cases h : tag ∈ m.keys <;> simp [h]

/-- The filtered draw loop changes no key of the map. -/
theorem drawTags_keys (rps : HdRenderPassState) (tags : List TfToken) :
    ∀ m : _HdCommandBufferMap, (drawTags rps tags m).1.keys = m.keys := by
  induction tags with
  | nil => intro m; rfl
  | cons tag rest ih =>
    intro m
    by_cases h : tag ∈ m.keys
    · have h0 : ¬ (m.count tag == 0) = true := by
        rw [count_eq_zero_iff_not_mem_keys]; exact fun hh => hh h
      simp only [drawTags, h0, if_false, Bool.false_eq_true]
      rw [ih, TagMap.keys_modify, TagMap.index_of_mem _ tag
        (by rw [TagMap.keys_modify, TagMap.index_of_mem m tag h]; exact h),
        TagMap.keys_modify, TagMap.index_of_mem m tag h]
    · have h0 : (m.count tag == 0) = true := (count_eq_zero_iff_not_mem_keys m tag).2 h
      simp only [drawTags, h0, if_true]
      exact ih m

/-- The calls of the filtered draw loop: one `PrepareDraw`, `ExecuteDraw` pair
per filter entry that is a key of the map, in filter order. -/
theorem drawTags_trace (rps : HdRenderPassState) (tags : List TfToken) :
    ∀ m : _HdCommandBufferMap, (drawTags rps tags m).2
      = (tags.filter (fun t => decide (t ∈ m.keys))).flatMap
          (fun t => [Call.PrepareDraw t rps, Call.ExecuteDraw t rps]) := by
  induction tags with
  | nil => intro m; rfl
  | cons tag rest ih =>
    intro m
    by_cases h : tag ∈ m.keys
    · have h0 : ¬ (m.count tag == 0) = true := by
        rw [count_eq_zero_iff_not_mem_keys]; exact fun hh => hh h
      have hk : ((((m.index tag).modify tag (fun b => b.PrepareDraw rps)).index tag).modify tag
          (fun b => b.ExecuteDraw rps)).keys = m.keys := by
        rw [TagMap.keys_modify, TagMap.index_of_mem _ tag
          (by rw [TagMap.keys_modify, TagMap.index_of_mem m tag h]; exact h),
          TagMap.keys_modify, TagMap.index_of_mem m tag h]
      simp only [drawTags, h0, if_false, Bool.false_eq_true]
      rw [ih, hk]
      simp [List.filter_cons, h]
    · have h0 : (m.count tag == 0) = true := (count_eq_zero_iff_not_mem_keys m tag).2 h
      simp only [drawTags, h0, if_true]
      rw [ih]
      simp [List.filter_cons, h]

theorem prepare_lastCullingDisabledState (self : HdSt_RenderPass) (env : Env)
    (rps : HdRenderPassState) :
    (self._PrepareCommandBuffer env rps).1._lastCullingDisabledState = skipCulling env := by
  cases hc : collectionChanged self env <;> cases hs : skipCulling env
  · rcases frozen_or_cull self env with hf | ⟨hf, hl⟩
    · rw [prepare_same_cull self env rps hc hs hf]
    · rw [prepare_same_frozen self env rps hc hs hf hl]
  · rw [prepare_same_skip self env rps hc hs]
  · rw [prepare_changed_cull self env rps hc hs]
  · rw [prepare_changed_skip self env rps hc hs]

/-- Whenever culling is not skipped and the frozen branch is not taken, every
bucket of the resulting map has exactly one `FrustumCull` call, with the cull
matrix of the frame. -/
theorem prepare_cull_counts (self : HdSt_RenderPass) (env : Env) (rps : HdRenderPassState)
    (hs : skipCulling env = false)
    (hf : collectionChanged self env = true ∨ env.freezeCullFrustum = false
      ∨ self._lastCullingDisabledState = true) :
    ∀ tag ∈ (self._PrepareCommandBuffer env rps).1._cmdBuffers.keys,
      (self._PrepareCommandBuffer env rps).2.count (Call.FrustumCull tag rps.cullMatrix) = 1 := by
  have hinj : Function.Injective (fun tag => Call.FrustumCull tag rps.cullMatrix) := by
    intro a b hab; simpa using hab
  cases hc : collectionChanged self env
  · have hf2 : env.freezeCullFrustum = false ∨ self._lastCullingDisabledState = true := by
      rcases hf with hf | hf
      · rw [hc] at hf; exact absurd hf (by simp)
      · exact hf
    rw [prepare_same_cull self env rps hc hs hf2]
    intro tag htag
    simp only [TagMap.keys_mapVals] at htag
    simp only [List.count_append]
    rw [count_map_call _ (TagMap.nodup_keys _) _ hinj tag htag,
      count_map_call_of_ne _ _ _ (by intro a; simp)]
  · rw [prepare_changed_cull self env rps hc hs]
    intro tag htag
    simp only [TagMap.keys_mapVals] at htag
    simp only [List.count_append, swapLoop_trace]
    rw [count_map_call _ (TagMap.nodup_keys _) _ hinj tag htag,
      count_map_call_of_ne _ _ _ (by intro a; simp)]
    simp

theorem count_eq_zero_of_no_culling (pre : List Call)
    (hpre : ∀ c ∈ pre, isCullingCall c = false) (c : Call) (hc : isCullingCall c = true) :
    pre.count c = 0 := by
  apply List.count_eq_zero_of_not_mem
  intro hmem
  rw [hpre c hmem] at hc
  exact absurd hc (by simp)

/-- The trace of `_PrepareCommandBuffer` is the calls of the structural phase,
none of which is a culling call, followed by the culling calls of the mode over
the keys of the resulting map. -/
theorem prepare_trace_split (self : HdSt_RenderPass) (env : Env) (rps : HdRenderPassState) :
    ∃ pre : List Call, (∀ c ∈ pre, isCullingCall c = false)
      ∧ (self._PrepareCommandBuffer env rps).2
          = pre ++ cullCalls (cullingMode self env) env rps
              (self._PrepareCommandBuffer env rps).1._cmdBuffers.keys := by
  cases hc : collectionChanged self env <;> cases hs : skipCulling env
  · rcases frozen_or_cull self env with hf | ⟨hf, hl⟩
    · refine ⟨self._cmdBuffers.keys.map
        (fun tag => Call.RebuildDrawBatchesIfNeeded tag env.shaderBindingsVersion), ?_, ?_⟩
      · intro c hmem
        obtain ⟨a, _, rfl⟩ := List.mem_map.1 hmem
        rfl
      · have hm : cullingMode self env = CullingMode.Active := by
          rcases hf with hf | hf <;> simp [cullingMode, hs, hc, hf]
        rw [prepare_same_cull self env rps hc hs hf, hm]
        simp [cullCalls, TagMap.keys_mapVals]
    · refine ⟨self._cmdBuffers.keys.map
        (fun tag => Call.RebuildDrawBatchesIfNeeded tag env.shaderBindingsVersion), ?_, ?_⟩
      · intro c hmem
        obtain ⟨a, _, rfl⟩ := List.mem_map.1 hmem
        rfl
      · have hm : cullingMode self env = CullingMode.Frozen := by
          simp [cullingMode, hs, hc, hf, hl]
        rw [prepare_same_frozen self env rps hc hs hf hl, hm]
        simp [cullCalls]
  · refine ⟨self._cmdBuffers.keys.map
      (fun tag => Call.RebuildDrawBatchesIfNeeded tag env.shaderBindingsVersion), ?_, ?_⟩
    · intro c hmem
      obtain ⟨a, _, rfl⟩ := List.mem_map.1 hmem
      rfl
    · have hm : cullingMode self env = CullingMode.Skip := by simp [cullingMode, hs]
      rw [prepare_same_skip self env rps hc hs, hm]
      simp [cullCalls, TagMap.keys_mapVals]
  · refine ⟨[Call.perfCollectionsRefreshed, Call.GetDrawItems, Call.clear]
        ++ (swapLoop env.shaderBindingsVersion env.drawItems.entries TagMap.empty 0).2.2
        ++ [Call.perfTotalItemCount
              (swapLoop env.shaderBindingsVersion env.drawItems.entries TagMap.empty 0).2.1],
      ?_, ?_⟩
    · intro c hmem
      simp only [swapLoop_trace, List.mem_append, List.mem_map] at hmem
      rcases hmem with (hmem | ⟨a, _, rfl⟩) | hmem
      · simp only [List.mem_cons, List.mem_singleton, List.not_mem_nil, or_false] at hmem
        rcases hmem with rfl | rfl | rfl <;> rfl
      · rfl
      · simp only [List.mem_singleton] at hmem
        subst hmem; rfl
    · have hm : cullingMode self env = CullingMode.Active := by
        simp [cullingMode, hs, hc]
      rw [prepare_changed_cull self env rps hc hs, hm]
      simp [cullCalls, TagMap.keys_mapVals]
  · refine ⟨[Call.perfCollectionsRefreshed, Call.GetDrawItems, Call.clear]
        ++ (swapLoop env.shaderBindingsVersion env.drawItems.entries TagMap.empty 0).2.2
        ++ [Call.perfTotalItemCount
              (swapLoop env.shaderBindingsVersion env.drawItems.entries TagMap.empty 0).2.1],
      ?_, ?_⟩
    · intro c hmem
      simp only [swapLoop_trace, List.mem_append, List.mem_map] at hmem
      rcases hmem with (hmem | ⟨a, _, rfl⟩) | hmem
      · simp only [List.mem_cons, List.mem_singleton, List.not_mem_nil, or_false] at hmem
        rcases hmem with rfl | rfl | rfl <;> rfl
      · rfl
      · simp only [List.mem_singleton] at hmem
        subst hmem; rfl
    · have hm : cullingMode self env = CullingMode.Skip := by simp [cullingMode, hs]
      rw [prepare_changed_skip self env rps hc hs, hm]
      simp [cullCalls, TagMap.keys_mapVals]

/-- The calls of a frame in `Skip` mode: one `SyncDrawItemVisibility` per bucket
and no `FrustumCull`. -/
theorem calls_of_skip (pre : List Call) (hpre : ∀ c ∈ pre, isCullingCall c = false)
    (env : Env) (rps : HdRenderPassState) (keys : List TfToken) (hnd : keys.Nodup) :
    (∀ tag ∈ keys, (pre ++ cullCalls CullingMode.Skip env rps keys).count
        (Call.SyncDrawItemVisibility tag env.visibilityChangeCount) = 1)
      ∧ (∀ tag m, Call.FrustumCull tag m ∉ pre ++ cullCalls CullingMode.Skip env rps keys) := by
  constructor
  · intro tag htag
    rw [List.count_append, count_eq_zero_of_no_culling pre hpre
      (Call.SyncDrawItemVisibility tag env.visibilityChangeCount) rfl, Nat.zero_add]
    exact count_map_call keys hnd
      (fun tag => Call.SyncDrawItemVisibility tag env.visibilityChangeCount)
      (by intro a b hab; simpa using hab) tag htag
  · intro tag m hmem
    rcases List.mem_append.1 hmem with h | h
    · exact absurd (hpre _ h) (by simp [isCullingCall])
    · simp [cullCalls] at h

/-- The calls of a frame in `Active` mode: one `FrustumCull` per bucket, with the
cull matrix of the frame, and no `SyncDrawItemVisibility`. -/
theorem calls_of_active (pre : List Call) (hpre : ∀ c ∈ pre, isCullingCall c = false)
    (env : Env) (rps : HdRenderPassState) (keys : List TfToken) (hnd : keys.Nodup) :
    (∀ tag ∈ keys, (pre ++ cullCalls CullingMode.Active env rps keys).count
        (Call.FrustumCull tag rps.cullMatrix) = 1)
      ∧ (∀ tag m, Call.FrustumCull tag m ∈ pre ++ cullCalls CullingMode.Active env rps keys →
          tag ∈ keys ∧ m = rps.cullMatrix)
      ∧ (∀ tag n, Call.SyncDrawItemVisibility tag n
          ∉ pre ++ cullCalls CullingMode.Active env rps keys) := by
  refine ⟨?_, ?_, ?_⟩
  · intro tag htag
    rw [List.count_append, count_eq_zero_of_no_culling pre hpre
      (Call.FrustumCull tag rps.cullMatrix) rfl, Nat.zero_add]
    exact count_map_call keys hnd (fun tag => Call.FrustumCull tag rps.cullMatrix)
      (by intro a b hab; simpa using hab) tag htag
  · intro tag m hmem
    rcases List.mem_append.1 hmem with h | h
    · exact absurd (hpre _ h) (by simp [isCullingCall])
    · simp only [cullCalls, List.mem_map, Call.FrustumCull.injEq] at h
      obtain ⟨a, ha, h1, h2⟩ := h
      exact ⟨h1 ▸ ha, h2.symm⟩
  · intro tag n hmem
    rcases List.mem_append.1 hmem with h | h
    · exact absurd (hpre _ h) (by simp [isCullingCall])
    · simp [cullCalls] at h

/-- The calls of a frame in `Frozen` mode: no culling call at all. -/
theorem calls_of_frozen (pre : List Call) (hpre : ∀ c ∈ pre, isCullingCall c = false)
    (env : Env) (rps : HdRenderPassState) (keys : List TfToken) :
    ∀ c ∈ pre ++ cullCalls CullingMode.Frozen env rps keys, isCullingCall c = false := by
  intro c hmem
  rcases List.mem_append.1 hmem with h | h
  · exact hpre c h
  · simp [cullCalls] at h

theorem cullingMode_active (self : HdSt_RenderPass) (env : Env)
    (hs : skipCulling env = false)
    (hf : env.freezeCullFrustum = false ∨ collectionChanged self env = true
      ∨ skipCulling env ≠ self._lastCullingDisabledState) :
    cullingMode self env = CullingMode.Active := by
  rcases hf with hf | hf | hf
  · simp [cullingMode, hs, hf]
  · simp [cullingMode, hs, hf]
  · rw [hs] at hf
    have hl : self._lastCullingDisabledState = true := by
      cases h : self._lastCullingDisabledState
      · exact absurd h.symm hf
      · rfl
    simp [cullingMode, hs, hl]

/-- On a map without keys the draw loop makes no call, whatever the filter. -/
theorem drawPhase_trace_of_no_key (self : HdSt_RenderPass) (rps : HdRenderPassState)
    (renderTags : List TfToken) (hk : self._cmdBuffers.keys = []) :
    (self.drawPhase rps renderTags).2 = [] := by
  unfold drawPhase
  cases hemp : renderTags.isEmpty
  · simp only [Bool.false_eq_true, if_false, drawTags_trace, hk]
    simp
  · simp only [if_true, drawAll, hk]
    rfl

/-- A rebuilding `Prepare` leaves under every tag the items the view has. -/
theorem prepare_rebuild_find (self : HdSt_RenderPass) (env : Env) (rps : HdRenderPassState)
    (hc : collectionChanged self env = true) (tag : TfToken) :
    ((self._PrepareCommandBuffer env rps).1._cmdBuffers.find? tag).map
      HdCommandBuffer.drawItems = env.drawItems.find? tag := by
  have hview := (swapLoop_view env.shaderBindingsVersion env.drawItems).1
  have hfind : ((swapLoop env.shaderBindingsVersion env.drawItems.entries
      TagMap.empty 0).1.find? tag).map HdCommandBuffer.drawItems
        = env.drawItems.find? tag := by
    simp only [TagMap.find?, hview]
    rw [TagMap.lookup_map_snd env.drawItems.entries
      (fun its => (default : HdCommandBuffer).SwapDrawItems its env.shaderBindingsVersion) tag]
    cases env.drawItems.entries.lookup tag <;> simp [HdCommandBuffer.SwapDrawItems]
  cases hs : skipCulling env
  · rw [prepare_changed_cull self env rps hc hs, TagMap.find?_mapVals, ← hfind]
    cases TagMap.find? _ tag <;> simp [HdCommandBuffer.FrustumCull]
  · rw [prepare_changed_skip self env rps hc hs, TagMap.find?_mapVals, ← hfind]
    cases TagMap.find? _ tag <;> simp [HdCommandBuffer.SyncDrawItemVisibility]

/-- A rebuilding `Prepare` leaves the tags of the view as keys, in view order. -/
theorem prepare_rebuild_keys (self : HdSt_RenderPass) (env : Env) (rps : HdRenderPassState)
    (hc : collectionChanged self env = true) :
    (self._PrepareCommandBuffer env rps).1._cmdBuffers.keys = env.drawItems.keys := by
  have hview := (swapLoop_view env.shaderBindingsVersion env.drawItems).1
  have hkeys : (swapLoop env.shaderBindingsVersion env.drawItems.entries
      TagMap.empty 0).1.keys = env.drawItems.keys := by
    simp [TagMap.keys, hview, Function.comp_def]
  cases hs : skipCulling env
  · rw [prepare_changed_cull self env rps hc hs, TagMap.keys_mapVals, hkeys]
  · rw [prepare_changed_skip self env rps hc hs, TagMap.keys_mapVals, hkeys]

/-- A rebuilding `Prepare` leaves as many items in the buckets as the view has. -/
theorem prepare_rebuild_totalSize (self : HdSt_RenderPass) (env : Env)
    (rps : HdRenderPassState) (hc : collectionChanged self env = true) :
    totalSize (self._PrepareCommandBuffer env rps).1._cmdBuffers
      = viewItemCount env.drawItems := by
  cases hs : skipCulling env
  · rw [prepare_changed_cull self env rps hc hs]
    simp [totalSize, viewItemCount, TagMap.mapVals, (swapLoop_view _ env.drawItems).1,
      HdCommandBuffer.GetTotalSize, HdCommandBuffer.FrustumCull,
      HdCommandBuffer.SwapDrawItems, Function.comp_def]
  · rw [prepare_changed_skip self env rps hc hs]
    simp [totalSize, viewItemCount, TagMap.mapVals, (swapLoop_view _ env.drawItems).1,
      HdCommandBuffer.GetTotalSize, HdCommandBuffer.SyncDrawItemVisibility,
      HdCommandBuffer.SwapDrawItems, Function.comp_def]

/-- A `Prepare` that does not rebuild leaves the items of every bucket alone. -/
theorem prepare_same_drawItems (self : HdSt_RenderPass) (env : Env) (rps : HdRenderPassState)
    (hc : collectionChanged self env = false) :
    (self._PrepareCommandBuffer env rps).1._cmdBuffers.entries.map
        (fun e => (e.1, e.2.drawItems))
      = self._cmdBuffers.entries.map (fun e => (e.1, e.2.drawItems)) := by
  have hR : ∀ b : HdCommandBuffer,
      (b.RebuildDrawBatchesIfNeeded env.shaderBindingsVersion).drawItems = b.drawItems := by
    intro b
    unfold HdCommandBuffer.RebuildDrawBatchesIfNeeded
    split <;> rfl
  cases hs : skipCulling env
  · rcases frozen_or_cull self env with hf | ⟨hf, hl⟩
    · rw [prepare_same_cull self env rps hc hs hf]
      simp [TagMap.mapVals, Function.comp_def, HdCommandBuffer.FrustumCull, hR]
    · rw [prepare_same_frozen self env rps hc hs hf hl]
      simp [TagMap.mapVals, Function.comp_def, hR]
  · rw [prepare_same_skip self env rps hc hs]
    simp [TagMap.mapVals, Function.comp_def, HdCommandBuffer.SyncDrawItemVisibility, hR]

/-- In a trace made of two parts, a call that cannot be in the second part comes
before a call that cannot be in the first. -/
theorem index_lt_of_split {α : Type} (pre post : List α) (i j : Nat) (a b : α)
    (ha : (pre ++ post)[i]? = some a) (hb : (pre ++ post)[j]? = some b)
    (hapost : a ∉ post) (hbpre : b ∉ pre) : i < j := by
  have hi : i < pre.length := by
    by_contra hcon
    rw [List.getElem?_append_right (Nat.le_of_not_lt hcon)] at ha
    exact hapost (List.getElem?_mem ha)
  have hj : pre.length ≤ j := by
    by_contra hcon
    rw [List.getElem?_append_left (Nat.lt_of_not_le hcon)] at hb
    exact hbpre (List.getElem?_mem hb)
  exact Nat.lt_of_lt_of_le hi hj

theorem cullingMode_skip_iff (self : HdSt_RenderPass) (env : Env) :
    cullingMode self env = CullingMode.Skip ↔ skipCulling env = true := by
  unfold cullingMode
  cases hs : skipCulling env
  · simp only [Bool.false_eq_true, if_false, iff_false]
    split <;> simp
  · simp

/-- A `Prepare` that does not skip culling makes no `SyncDrawItemVisibility`
call. -/
theorem prepare_no_sync_of_not_skip (self : HdSt_RenderPass) (env : Env)
    (rps : HdRenderPassState) (hs : skipCulling env = false) (tag : TfToken) (n : Nat) :
    Call.SyncDrawItemVisibility tag n ∉ (self._PrepareCommandBuffer env rps).2 := by
  obtain ⟨pre, hpre, htr⟩ := prepare_trace_split self env rps
  rw [htr]
  intro hmem
  rcases List.mem_append.1 hmem with h | h
  · exact absurd (hpre _ h) (by simp [isCullingCall])
  · have hne : cullingMode self env ≠ CullingMode.Skip := by
      rw [Ne, cullingMode_skip_iff, hs]; simp
    cases hm : cullingMode self env
    · exact hne hm
    · rw [hm] at h; simp [cullCalls] at h
    · rw [hm] at h; simp [cullCalls] at h

/-- A `Prepare` that does not rebuild keeps the keys of the map. -/
theorem prepare_same_keys (self : HdSt_RenderPass) (env : Env) (rps : HdRenderPassState)
    (hc : collectionChanged self env = false) :
    (self._PrepareCommandBuffer env rps).1._cmdBuffers.keys = self._cmdBuffers.keys := by
  have h := congrArg (List.map Prod.fst) (prepare_same_drawItems self env rps hc)
  simpa [TagMap.keys, Function.comp_def] using h

/-- The draw loop changes no key of the map and no other member. -/
theorem drawPhase_keys (self : HdSt_RenderPass) (rps : HdRenderPassState)
    (renderTags : List TfToken) :
    (self.drawPhase rps renderTags).1._cmdBuffers.keys = self._cmdBuffers.keys := by
  unfold drawPhase
  cases hemp : renderTags.isEmpty
  · simp only [Bool.false_eq_true, if_false, drawTags_keys]
  · simp only [if_true, drawAll, TagMap.keys_mapVals]

theorem filter_isSwapCall_swaps (l : List (TfToken × List HdDrawItem)) (sbv : Int) :
    (l.map (fun e => Call.SwapDrawItems e.1 e.2 sbv)).filter isSwapCall
      = l.map (fun e => Call.SwapDrawItems e.1 e.2 sbv) := by
  rw [List.filter_eq_self]
  intro c hc
  obtain ⟨e, _, rfl⟩ := List.mem_map.1 hc
  rfl

theorem filter_isSwapCall_none {α : Type} (l : List α) (call : α → Call)
    (h : ∀ a, isSwapCall (call a) = false) : (l.map call).filter isSwapCall = [] := by
  rw [List.filter_eq_nil_iff]
  intro c hc
  obtain ⟨a, _, rfl⟩ := List.mem_map.1 hc
  simp [h a]

/-- A `Prepare` whose `collectionChanged` is true rebuilds the map from the view
of the frame. -/
theorem rebuiltFrom_prepare (self : HdSt_RenderPass) (env : Env) (rps : HdRenderPassState)
    (hc : collectionChanged self env = true) :
    rebuiltFrom env.drawItems env.shaderBindingsVersion
      (self._PrepareCommandBuffer env rps) := by
  have hview := (swapLoop_view env.shaderBindingsVersion env.drawItems).1
  cases hs : skipCulling env
  · rw [prepare_changed_cull self env rps hc hs]
    refine ⟨by simp, by simp, ?_, ?_⟩
    · apply List.Perm.of_eq
      simp only [swapLoop_trace, List.filter_append, filter_isSwapCall_swaps]
      rw [filter_isSwapCall_none _ (fun tag => Call.FrustumCull tag rps.cullMatrix)
        (fun _ => rfl)]
      simp [List.filter, isSwapCall]
    · apply List.Perm.of_eq
      simp [bucketItems, TagMap.mapVals, hview, Function.comp_def,
        HdCommandBuffer.FrustumCull, HdCommandBuffer.SwapDrawItems]
  · rw [prepare_changed_skip self env rps hc hs]
    refine ⟨by simp, by simp, ?_, ?_⟩
    · apply List.Perm.of_eq
      simp only [swapLoop_trace, List.filter_append, filter_isSwapCall_swaps]
      rw [filter_isSwapCall_none _
        (fun tag => Call.SyncDrawItemVisibility tag env.visibilityChangeCount) (fun _ => rfl)]
      simp [List.filter, isSwapCall]
    · apply List.Perm.of_eq
      simp [bucketItems, TagMap.mapVals, hview, Function.comp_def,
        HdCommandBuffer.SyncDrawItemVisibility, HdCommandBuffer.SwapDrawItems]

/-- A `Prepare` whose `collectionChanged` is false does not rebuild the map. -/
theorem notRebuilt_prepare (self : HdSt_RenderPass) (env : Env) (rps : HdRenderPassState)
    (hc : collectionChanged self env = false) :
    notRebuilt self (self._PrepareCommandBuffer env rps) := by
  refine ⟨?_, ?_, ?_, prepare_same_drawItems self env rps hc⟩
  · cases hs : skipCulling env
    · rcases frozen_or_cull self env with hf | ⟨hf, hl⟩
      · rw [prepare_same_cull self env rps hc hs hf]; simp
      · rw [prepare_same_frozen self env rps hc hs hf hl]; simp
    · rw [prepare_same_skip self env rps hc hs]; simp
  · cases hs : skipCulling env
    · rcases frozen_or_cull self env with hf | ⟨hf, hl⟩
      · rw [prepare_same_cull self env rps hc hs hf]; simp
      · rw [prepare_same_frozen self env rps hc hs hf hl]; simp
    · rw [prepare_same_skip self env rps hc hs]; simp
  · cases hs : skipCulling env
    · rcases frozen_or_cull self env with hf | ⟨hf, hl⟩
      · rw [prepare_same_cull self env rps hc hs hf, List.filter_append,
          filter_isSwapCall_none _
            (fun tag => Call.RebuildDrawBatchesIfNeeded tag env.shaderBindingsVersion)
            (fun _ => rfl),
          filter_isSwapCall_none _ (fun tag => Call.FrustumCull tag rps.cullMatrix)
            (fun _ => rfl)]
        rfl
      · rw [prepare_same_frozen self env rps hc hs hf hl,
          filter_isSwapCall_none _
            (fun tag => Call.RebuildDrawBatchesIfNeeded tag env.shaderBindingsVersion)
            (fun _ => rfl)]
    · rw [prepare_same_skip self env rps hc hs, List.filter_append,
        filter_isSwapCall_none _
          (fun tag => Call.RebuildDrawBatchesIfNeeded tag env.shaderBindingsVersion)
          (fun _ => rfl),
        filter_isSwapCall_none _
          (fun tag => Call.SyncDrawItemVisibility tag env.visibilityChangeCount)
          (fun _ => rfl)]
      rfl

/-- A `Prepare` rebuilds the map from the view of the frame exactly when its
`collectionChanged` is true. -/
theorem rebuiltFrom_prepare_iff (self : HdSt_RenderPass) (env : Env)
    (rps : HdRenderPassState) :
    rebuiltFrom env.drawItems env.shaderBindingsVersion (self._PrepareCommandBuffer env rps)
      ↔ collectionChanged self env = true := by
  constructor
  · intro h
    cases hc : collectionChanged self env
    · exact absurd h.1 (notRebuilt_prepare self env rps hc).1
    · rfl
  · exact rebuiltFrom_prepare self env rps

/-- A `Prepare` leaves the map unrebuilt exactly when its `collectionChanged` is
false. -/
theorem notRebuilt_prepare_iff (self : HdSt_RenderPass) (env : Env)
    (rps : HdRenderPassState) :
    notRebuilt self (self._PrepareCommandBuffer env rps)
      ↔ collectionChanged self env = false := by
  constructor
  · intro h
    cases hc : collectionChanged self env
    · rfl
    · exact absurd (rebuiltFrom_prepare self env rps hc).1 h.1
  · exact notRebuilt_prepare self env rps

/-- The change-detection property holds from any state whose members agree with
the history. -/
theorem rebuildsAsSpecified_of_agree (frames : List Frame) :
    ∀ (self : HdSt_RenderPass) (h : History),
      h.dirtySince = self._collectionChanged →
      (self._collectionChanged = false → self._collectionVersion = h.lastRebuildVersion) →
      rebuildsAsSpecified self h frames := by
  induction frames with
  | nil => intro self h _ _; trivial
  | cons f fs ih =>
    intro self h hd hv
    simp only [rebuildsAsSpecified, rebuiltFrom_prepare_iff, notRebuilt_prepare_iff]
    cases hm : f.markDirty
    · -- no dirty call in this frame
      simp only [Bool.false_eq_true, if_false]
      cases hc : collectionChanged self f.env
      · obtain ⟨h1, h2⟩ := (collectionChanged_eq_false self f.env).1 hc
        have hcond : ¬ (f.env.collectionVersion ≠ h.lastRebuildVersion
            ∨ h.dirtySince = true) := by
          simp [hd, h1, ← hv h1, h2]
        refine ⟨?_, ?_, ?_⟩
        · simp only [Bool.false_eq_true, false_iff]; exact hcond
        · simp only [true_iff]; exact hcond
        · simp only [Bool.false_eq_true, if_false]
          apply ih
          · rw [prepare_collectionChanged, hd, h1]
          · intro _
            rw [prepare_collectionVersion, ← hv h1, h2]
      · have hcond : f.env.collectionVersion ≠ h.lastRebuildVersion
            ∨ h.dirtySince = true := by
          by_cases h1 : self._collectionChanged = true
          · right; rw [hd, h1]
          · left
            simp only [Bool.not_eq_true] at h1
            rw [← hv h1]
            simp [collectionChanged, h1] at hc
            exact fun hh => hc hh.symm
        refine ⟨?_, ?_, ?_⟩
        · simp only [true_iff]; exact hcond
        · simp only [Bool.true_eq_false, false_iff, not_not]; exact hcond
        · simp only [if_true]
          apply ih
          · rw [prepare_collectionChanged]
          · intro _; rw [prepare_collectionVersion]
    · -- the owner marked the collection dirty
      have hc : collectionChanged self._MarkCollectionDirty f.env = true := by
        simp [collectionChanged, _MarkCollectionDirty]
      simp only [if_true, hc, true_iff, or_true, true_and, not_true_eq_false,
        Bool.true_eq_false]
      apply ih
      · rw [prepare_collectionChanged]
      · intro _; rw [prepare_collectionVersion]

end HdSt_RenderPass

/-! ## The claims -/

open HdSt_RenderPass

/-- C1: for every initial render pass and every finite sequence of frames (an
optional `_MarkCollectionDirty`, then a `_PrepareCommandBuffer` observing some
collection version), each `Prepare` rebuilds the command-buffer map (clears it,
queries `GetDrawItems`, swaps the items of every tag of the view into a bucket
and leaves the map holding exactly the view's tags and items) if and only if
the version it observes differs from the cached version stored by the last
rebuild or `_MarkCollectionDirty` was called since the last rebuild; otherwise
it neither clears the map nor queries `GetDrawItems` nor swaps items, and every
bucket keeps its items.  Before the first rebuild the cached version and the
dirty flag of the initial state stand for those of the last rebuild. -/
theorem C1_rebuild_iff_version_differs_or_dirty (self : HdSt_RenderPass)
    (frames : List Frame) :
    rebuildsAsSpecified self ⟨self._collectionVersion, self._collectionChanged⟩ frames :=
  rebuildsAsSpecified_of_agree frames self _ rfl (fun _ => rfl)

/-- C2: for every `Prepare` that rebuilds (the draw item view maps distinct
render tags to item sequences, by its type): afterwards the sum of
`GetTotalSize` over the buckets equals the sum of the lengths of the per-tag
item sequences returned by `GetDrawItems`, it is the one value set on the
`totalItemCount` counter, the cached collection version is the version observed
in this `Prepare`, and the dirty flag is false. -/
theorem C2_rebuild_total_and_version (self : HdSt_RenderPass) (env : Env)
    (rps : HdRenderPassState)
    (h : rebuilds (self._PrepareCommandBuffer env rps).2 = true) :
    totalSize (self._PrepareCommandBuffer env rps).1._cmdBuffers
        = (env.drawItems.entries.map (fun e => e.2.length)).sum
      ∧ (∀ n, Call.perfTotalItemCount n ∈ (self._PrepareCommandBuffer env rps).2 ↔
          n = totalSize (self._PrepareCommandBuffer env rps).1._cmdBuffers)
      ∧ (self._PrepareCommandBuffer env rps).1._collectionVersion = env.collectionVersion
      ∧ (self._PrepareCommandBuffer env rps).1._collectionChanged = false := by
  rw [rebuilds_prepare] at h
  refine ⟨?_, ?_, prepare_collectionVersion self env rps,
    prepare_collectionChanged self env rps⟩
  · cases hs : skipCulling env
    · rw [prepare_changed_cull self env rps h hs]
      simp [totalSize, TagMap.mapVals, (swapLoop_view _ env.drawItems).1,
        HdCommandBuffer.GetTotalSize, HdCommandBuffer.FrustumCull,
        HdCommandBuffer.SwapDrawItems, Function.comp_def]
    · rw [prepare_changed_skip self env rps h hs]
      simp [totalSize, TagMap.mapVals, (swapLoop_view _ env.drawItems).1,
        HdCommandBuffer.GetTotalSize, HdCommandBuffer.SyncDrawItemVisibility,
        HdCommandBuffer.SwapDrawItems, Function.comp_def]
  · intro n
    cases hs : skipCulling env
    · rw [prepare_changed_cull self env rps h hs]
      simp [totalSize, TagMap.mapVals, swapLoop_view, swapLoop_trace,
        HdCommandBuffer.GetTotalSize, HdCommandBuffer.FrustumCull,
        HdCommandBuffer.SwapDrawItems, Function.comp_def]
    · rw [prepare_changed_skip self env rps h hs]
      simp [totalSize, TagMap.mapVals, swapLoop_view, swapLoop_trace,
        HdCommandBuffer.GetTotalSize, HdCommandBuffer.SyncDrawItemVisibility,
        HdCommandBuffer.SwapDrawItems, Function.comp_def]

/-- Witness of C2: the first frame of a new render pass in `sampleEnv`. -/
theorem C2_rebuild_total_and_version_witness :
    rebuilds (HdSt_RenderPass.new._PrepareCommandBuffer sampleEnv sampleState).2 = true
      ∧ totalSize (HdSt_RenderPass.new._PrepareCommandBuffer sampleEnv sampleState).1._cmdBuffers
          = (sampleEnv.drawItems.entries.map (fun e => e.2.length)).sum :=
  ⟨by decide,
    (C2_rebuild_total_and_version HdSt_RenderPass.new sampleEnv sampleState (by decide)).1⟩

/-- C3: for every `Prepare` that rebuilds, whatever the map held before:
afterwards the keys of the map are the tags returned by `GetDrawItems`, under
every tag the bucket holds that tag's draw items (and there is no bucket under a
tag the view lacks), every tag of the view had exactly one
`SwapDrawItems` call, with its items and the shader-bindings version observed in
this `Prepare`, and no other `SwapDrawItems` call was made. -/
theorem C3_rebuild_buckets (self : HdSt_RenderPass) (env : Env) (rps : HdRenderPassState)
    (h : rebuilds (self._PrepareCommandBuffer env rps).2 = true) :
    (∀ tag, tag ∈ (self._PrepareCommandBuffer env rps).1._cmdBuffers.keys
          ↔ tag ∈ env.drawItems.keys)
      ∧ (∀ tag, ((self._PrepareCommandBuffer env rps).1._cmdBuffers.find? tag).map
            HdCommandBuffer.drawItems = env.drawItems.find? tag)
      ∧ (∀ tag items, env.drawItems.find? tag = some items →
          (self._PrepareCommandBuffer env rps).2.count
            (Call.SwapDrawItems tag items env.shaderBindingsVersion) = 1)
      ∧ (∀ tag items sbv,
          Call.SwapDrawItems tag items sbv ∈ (self._PrepareCommandBuffer env rps).2 →
            env.drawItems.find? tag = some items ∧ sbv = env.shaderBindingsVersion) := by
  rw [rebuilds_prepare] at h
  have hview := (swapLoop_view env.shaderBindingsVersion env.drawItems).1
  have hkeys : (swapLoop env.shaderBindingsVersion env.drawItems.entries
      TagMap.empty 0).1.keys = env.drawItems.keys := by
    simp [TagMap.keys, hview, Function.comp_def]
  have hfind : ∀ tag, ((swapLoop env.shaderBindingsVersion env.drawItems.entries
      TagMap.empty 0).1.find? tag).map HdCommandBuffer.drawItems
        = env.drawItems.find? tag := by
    intro tag
    simp only [TagMap.find?, hview]
    rw [TagMap.lookup_map_snd env.drawItems.entries
      (fun its => (default : HdCommandBuffer).SwapDrawItems its env.shaderBindingsVersion) tag]
    cases env.drawItems.entries.lookup tag <;> simp [HdCommandBuffer.SwapDrawItems]
  have hinj : Function.Injective (fun e : TfToken × List HdDrawItem =>
      Call.SwapDrawItems e.1 e.2 env.shaderBindingsVersion) := by
    intro e1 e2 he
    simp only [Call.SwapDrawItems.injEq, and_true] at he
    exact Prod.ext he.1 he.2
  have hcount : ∀ tag items, env.drawItems.find? tag = some items →
      (env.drawItems.entries.map (fun e =>
        Call.SwapDrawItems e.1 e.2 env.shaderBindingsVersion)).count
          (Call.SwapDrawItems tag items env.shaderBindingsVersion) = 1 := by
    intro tag items hf
    exact List.count_eq_one_of_mem (List.Nodup.map hinj env.drawItems.nodup_entries)
      (List.mem_map_of_mem _ (TagMap.mem_of_lookup _ tag items hf))
  have hmem : ∀ tag items sbv, Call.SwapDrawItems tag items sbv ∈
      env.drawItems.entries.map (fun e =>
        Call.SwapDrawItems e.1 e.2 env.shaderBindingsVersion) →
      env.drawItems.find? tag = some items ∧ sbv = env.shaderBindingsVersion := by
    intro tag items sbv hm
    obtain ⟨e, he, hee⟩ := List.mem_map.1 hm
    simp only [Call.SwapDrawItems.injEq] at hee
    obtain ⟨h1, h2, h3⟩ := hee
    subst h1; subst h2
    exact ⟨TagMap.lookup_of_mem _ env.drawItems.nodup _ _ he, h3.symm⟩
  cases hs : skipCulling env
  · rw [prepare_changed_cull self env rps h hs]
    refine ⟨?_, ?_, ?_, ?_⟩
    · intro tag
      simp only [TagMap.keys_mapVals, hkeys]
    · intro tag
      rw [TagMap.find?_mapVals, ← hfind tag]
      cases TagMap.find? _ tag <;> simp [HdCommandBuffer.FrustumCull]
    · intro tag items hf
      simp only [swapLoop_trace, List.count_append, hcount tag items hf]
      rw [count_map_call_of_ne _ _ _ (by intro a; simp)]
      simp
    · intro tag items sbv hm
      simp only [swapLoop_trace, List.mem_append] at hm
      rcases hm with ((hm | hm) | hm) | hm
      · simp at hm
      · exact hmem tag items sbv hm
      · simp at hm
      · simp at hm
  · rw [prepare_changed_skip self env rps h hs]
    refine ⟨?_, ?_, ?_, ?_⟩
    · intro tag
      simp only [TagMap.keys_mapVals, hkeys]
    · intro tag
      rw [TagMap.find?_mapVals, ← hfind tag]
      cases TagMap.find? _ tag <;> simp [HdCommandBuffer.SyncDrawItemVisibility]
    · intro tag items hf
      simp only [swapLoop_trace, List.count_append, hcount tag items hf]
      rw [count_map_call_of_ne _ _ _ (by intro a; simp)]
      simp
    · intro tag items sbv hm
      simp only [swapLoop_trace, List.mem_append] at hm
      rcases hm with ((hm | hm) | hm) | hm
      · simp at hm
      · exact hmem tag items sbv hm
      · simp at hm
      · simp at hm

/-- Witness of C3: the first frame of a new render pass in `sampleEnvSkip`. -/
theorem C3_rebuild_buckets_witness :
    rebuilds (HdSt_RenderPass.new._PrepareCommandBuffer sampleEnvSkip sampleState).2 = true
      ∧ ((HdSt_RenderPass.new._PrepareCommandBuffer sampleEnvSkip sampleState).1._cmdBuffers.find?
            "A").map HdCommandBuffer.drawItems = sampleEnvSkip.drawItems.find? "A"
      ∧ (HdSt_RenderPass.new._PrepareCommandBuffer sampleEnvSkip sampleState).2.count
            (Call.SwapDrawItems "A" [1, 2] sampleEnvSkip.shaderBindingsVersion) = 1 :=
  ⟨by decide,
    (C3_rebuild_buckets HdSt_RenderPass.new sampleEnvSkip sampleState (by decide)).2.1 "A",
    (C3_rebuild_buckets HdSt_RenderPass.new sampleEnvSkip sampleState (by decide)).2.2.1
      "A" [1, 2] (by decide)⟩

/-- C4: for every non-empty render-tag filter and every command-buffer map, the
draw loop of `_Execute` (the part after `_PrepareCommandBuffer`) makes only
`PrepareDraw` and `ExecuteDraw` calls, with the frame's render-pass state, on
buckets whose tag occurs in the filter and is a key of the map; so a tag of the
filter that is absent from the map gets no draw call (and the loop returns
normally), and a bucket whose tag is not in the filter is not drawn. -/
theorem C4_filtered_draw_only_present_tags (self : HdSt_RenderPass)
    (rps : HdRenderPassState) (renderTags : List TfToken) (hne : renderTags ≠ []) :
    (∀ c ∈ (self.drawPhase rps renderTags).2, ∃ tag, tag ∈ renderTags
        ∧ tag ∈ self._cmdBuffers.keys
        ∧ (c = Call.PrepareDraw tag rps ∨ c = Call.ExecuteDraw tag rps))
      ∧ (∀ tag r, (Call.PrepareDraw tag r ∈ (self.drawPhase rps renderTags).2
            ∨ Call.ExecuteDraw tag r ∈ (self.drawPhase rps renderTags).2) →
          tag ∈ renderTags ∧ tag ∈ self._cmdBuffers.keys) := by
  have hemp : renderTags.isEmpty = false := by
    cases renderTags with
    | nil => exact absurd rfl hne
    | cons a l => rfl
  have hall : ∀ c ∈ (self.drawPhase rps renderTags).2, ∃ tag, tag ∈ renderTags
      ∧ tag ∈ self._cmdBuffers.keys
      ∧ (c = Call.PrepareDraw tag rps ∨ c = Call.ExecuteDraw tag rps) := by
    intro c hc
    simp only [drawPhase, hemp, Bool.false_eq_true, if_false, drawTags_trace,
      List.mem_flatMap, List.mem_filter, decide_eq_true_eq] at hc
    obtain ⟨tag, ⟨h1, h2⟩, h3⟩ := hc
    refine ⟨tag, h1, h2, ?_⟩
    simpa using h3
  refine ⟨hall, ?_⟩
  intro tag r hm
  rcases hm with hm | hm
  · obtain ⟨t, h1, h2, h3⟩ := hall _ hm
    rcases h3 with h3 | h3
    · simp only [Call.PrepareDraw.injEq] at h3
      exact ⟨h3.1 ▸ h1, h3.1 ▸ h2⟩
    · simp at h3
  · obtain ⟨t, h1, h2, h3⟩ := hall _ hm
    rcases h3 with h3 | h3
    · simp at h3
    · simp only [Call.ExecuteDraw.injEq] at h3
      exact ⟨h3.1 ▸ h1, h3.1 ▸ h2⟩

/-- Witness of C4: the filter `[A, C]` on a map with keys `A` and `B` draws
bucket `A` only. -/
theorem C4_filtered_draw_only_present_tags_witness :
    (["A", "C"] : List TfToken) ≠ []
      ∧ samplePass._cmdBuffers.keys = ["A", "B"]
      ∧ (samplePass.drawPhase sampleState ["A", "C"]).2
          = [Call.PrepareDraw "A" sampleState, Call.ExecuteDraw "A" sampleState]
      ∧ ("A" ∈ (["A", "C"] : List TfToken) ∧ "A" ∈ samplePass._cmdBuffers.keys) :=
  ⟨by decide, by decide, by decide,
    (C4_filtered_draw_only_present_tags samplePass sampleState ["A", "C"] (by decide)).2
      "A" sampleState (Or.inl (by decide))⟩

/-- C6: `_MarkCollectionDirty` sets the cached version to 0 and the
collection-changed flag to true, and the `Prepare` that directly follows it
rebuilds the command-buffer map from the view of its frame (the map is cleared,
`GetDrawItems` is queried, the items of every tag are swapped in, and the map
then holds exactly the view's tags and items), for every render pass and every
observed collection version (0 and the previously cached version included). -/
theorem C6_prepare_after_mark_dirty_rebuilds (self : HdSt_RenderPass) (env : Env)
    (rps : HdRenderPassState) :
    rebuiltFrom env.drawItems env.shaderBindingsVersion
        (self._MarkCollectionDirty._PrepareCommandBuffer env rps)
      ∧ rebuilds (self._MarkCollectionDirty._PrepareCommandBuffer env rps).2 = true
      ∧ self._MarkCollectionDirty._collectionVersion = 0
      ∧ self._MarkCollectionDirty._collectionChanged = true := by
  have hc : collectionChanged self._MarkCollectionDirty env = true := by
    simp [collectionChanged, _MarkCollectionDirty]
  refine ⟨rebuiltFrom_prepare _ env rps hc, ?_, rfl, rfl⟩
  rw [rebuilds_prepare, hc]

/-- C7: for every `Prepare` in which `skipCulling` is true, rebuilding or not:
no `FrustumCull` call is made, every bucket of the resulting map has exactly
one `SyncDrawItemVisibility` call, with the tracker's current visibility-change
counter (and no other such call is made), and, `SyncDrawItemVisibility` marking
all items of a bucket visible, the culled-item count of every bucket equals its
total item count after `Prepare`. -/
theorem C7_skip_culling_syncs_every_bucket (self : HdSt_RenderPass) (env : Env)
    (rps : HdRenderPassState) (hs : skipCulling env = true) :
    (∀ tag m, Call.FrustumCull tag m ∉ (self._PrepareCommandBuffer env rps).2)
      ∧ (∀ tag ∈ (self._PrepareCommandBuffer env rps).1._cmdBuffers.keys,
          (self._PrepareCommandBuffer env rps).2.count
            (Call.SyncDrawItemVisibility tag env.visibilityChangeCount) = 1)
      ∧ (∀ tag n, Call.SyncDrawItemVisibility tag n ∈ (self._PrepareCommandBuffer env rps).2 →
          tag ∈ (self._PrepareCommandBuffer env rps).1._cmdBuffers.keys
            ∧ n = env.visibilityChangeCount)
      ∧ (∀ e ∈ (self._PrepareCommandBuffer env rps).1._cmdBuffers.entries,
          e.2.GetCulledSize = e.2.GetTotalSize) := by
  have hinj : Function.Injective
      (fun tag => Call.SyncDrawItemVisibility tag env.visibilityChangeCount) := by
    intro a b hab; simpa using hab
  cases hc : collectionChanged self env
  · rw [prepare_same_skip self env rps hc hs]
    refine ⟨?_, ?_, ?_, ?_⟩
    · intro tag m; simp
    · intro tag htag
      simp only [TagMap.keys_mapVals] at htag
      simp only [List.count_append]
      rw [count_map_call _ (TagMap.nodup_keys _) _ hinj tag htag,
        count_map_call_of_ne _ _ _ (by intro a; simp)]
    · intro tag n hm
      simp only [TagMap.keys_mapVals]
      simp only [List.mem_append, List.mem_map, Call.SyncDrawItemVisibility.injEq] at hm
      rcases hm with ⟨a, _, ha⟩ | ⟨a, ha, h1, h2⟩
      · simp at ha
      · exact ⟨h1 ▸ ha, h2.symm⟩
    · intro e he
      simp only [TagMap.mapVals, List.mem_map] at he
      obtain ⟨a, _, rfl⟩ := he
      rfl
  · rw [prepare_changed_skip self env rps hc hs]
    refine ⟨?_, ?_, ?_, ?_⟩
    · intro tag m; simp [swapLoop_trace]
    · intro tag htag
      simp only [TagMap.keys_mapVals] at htag
      simp only [List.count_append, swapLoop_trace]
      rw [count_map_call _ (TagMap.nodup_keys _) _ hinj tag htag,
        count_map_call_of_ne _ _ _ (by intro a; simp)]
      simp
    · intro tag n hm
      simp only [TagMap.keys_mapVals]
      simp only [swapLoop_trace, List.mem_append, List.mem_map,
        Call.SyncDrawItemVisibility.injEq] at hm
      rcases hm with ((hm | ⟨a, _, ha⟩) | hm) | ⟨a, ha, h1, h2⟩
      · simp at hm
      · simp at ha
      · simp at hm
      · exact ⟨h1 ▸ ha, h2.symm⟩
    · intro e he
      simp only [TagMap.mapVals, List.mem_map] at he
      obtain ⟨a, _, rfl⟩ := he
      rfl

/-- Witness of C7: a frame with `HD_DISABLE_FRUSTUM_CULLING` set. -/
theorem C7_skip_culling_syncs_every_bucket_witness :
    skipCulling sampleEnvSkip = true
      ∧ (samplePass._PrepareCommandBuffer sampleEnvSkip sampleState).2.count
          (Call.SyncDrawItemVisibility "B" sampleEnvSkip.visibilityChangeCount) = 1 :=
  ⟨by decide,
    (C7_skip_culling_syncs_every_bucket samplePass sampleEnvSkip sampleState (by decide)).2.1
      "B" (by decide)⟩

/-- C8: for every `Prepare` in which the freeze-culling toggle is on,
`skipCulling` is false and equal to the value persisted by the previous
`Prepare`, and the collection did not change: no `FrustumCull` call is made, the
map keeps its keys, and under every tag the culled-item count of the bucket
after `Prepare` is the one before, whatever cull matrix the render-pass state
carries. -/
theorem C8_frozen_culling_keeps_culled_counts (self : HdSt_RenderPass) (env : Env)
    (rps : HdRenderPassState) (hf : env.freezeCullFrustum = true)
    (hs : skipCulling env = false) (hc : collectionChanged self env = false)
    (hl : self._lastCullingDisabledState = skipCulling env) :
    (∀ tag m, Call.FrustumCull tag m ∉ (self._PrepareCommandBuffer env rps).2)
      ∧ (self._PrepareCommandBuffer env rps).1._cmdBuffers.keys = self._cmdBuffers.keys
      ∧ (∀ tag, ((self._PrepareCommandBuffer env rps).1._cmdBuffers.find? tag).map
            HdCommandBuffer.GetCulledSize
          = (self._cmdBuffers.find? tag).map HdCommandBuffer.GetCulledSize) := by
  rw [hs] at hl
  rw [prepare_same_frozen self env rps hc hs hf hl]
  refine ⟨?_, ?_, ?_⟩
  · intro tag m; simp
  · simp only [TagMap.keys_mapVals]
  · intro tag
    simp only [TagMap.find?_mapVals]
    cases self._cmdBuffers.find? tag with
    | none => rfl
    | some b =>
      simp only [Option.map_some', Option.some.injEq, HdCommandBuffer.GetCulledSize,
        HdCommandBuffer.RebuildDrawBatchesIfNeeded]
      split <;> rfl

/-- Witness of C8: a second frame on `samplePass` with the freeze toggle on. -/
theorem C8_frozen_culling_keeps_culled_counts_witness :
    sampleEnvFreeze.freezeCullFrustum = true
      ∧ skipCulling sampleEnvFreeze = false
      ∧ collectionChanged samplePass sampleEnvFreeze = false
      ∧ samplePass._lastCullingDisabledState = skipCulling sampleEnvFreeze
      ∧ ((samplePass._PrepareCommandBuffer sampleEnvFreeze ⟨1⟩).1._cmdBuffers.find? "A").map
            HdCommandBuffer.GetCulledSize
          = (samplePass._cmdBuffers.find? "A").map HdCommandBuffer.GetCulledSize :=
  ⟨by decide, by decide, by decide, by decide,
    (C8_frozen_culling_keeps_culled_counts samplePass sampleEnvFreeze ⟨1⟩
      (by decide) (by decide) (by decide) (by decide)).2.2 "A"⟩

/-- C9: if `skipCulling` is true in one `Prepare` and false in the next one
(with or without a `_MarkCollectionDirty` in between), then that next `Prepare`
calls `FrustumCull` on every bucket of its map, once, with the cull matrix of its
frame, whatever the freeze-culling toggle and whether or not the collection
changed. -/
theorem C9_recull_after_skip_mode_ends (self : HdSt_RenderPass) (env1 env2 : Env)
    (rps1 rps2 : HdRenderPassState) (markDirty : Bool)
    (h1 : skipCulling env1 = true) (h2 : skipCulling env2 = false) :
    ∀ tag ∈ ((if markDirty then (self._PrepareCommandBuffer env1 rps1).1._MarkCollectionDirty
          else (self._PrepareCommandBuffer env1 rps1).1)._PrepareCommandBuffer
            env2 rps2).1._cmdBuffers.keys,
      ((if markDirty then (self._PrepareCommandBuffer env1 rps1).1._MarkCollectionDirty
          else (self._PrepareCommandBuffer env1 rps1).1)._PrepareCommandBuffer
            env2 rps2).2.count (Call.FrustumCull tag rps2.cullMatrix) = 1 := by
  apply prepare_cull_counts _ env2 rps2 h2
  right; right
  cases markDirty
  · simp only [Bool.false_eq_true, if_false]
    rw [prepare_lastCullingDisabledState, h1]
  · simp only [if_true, _MarkCollectionDirty]
    rw [prepare_lastCullingDisabledState, h1]

/-- Witness of C9: a skipped frame, then a frame with CPU culling and the freeze
toggle on. -/
theorem C9_recull_after_skip_mode_ends_witness :
    skipCulling sampleEnvSkip = true ∧ skipCulling sampleEnvFreeze = false
      ∧ ((if false = true
            then (samplePass._PrepareCommandBuffer sampleEnvSkip sampleState).1._MarkCollectionDirty
            else (samplePass._PrepareCommandBuffer sampleEnvSkip sampleState).1)._PrepareCommandBuffer
              sampleEnvFreeze sampleState).2.count
          (Call.FrustumCull "A" sampleState.cullMatrix) = 1 :=
  ⟨by decide, by decide,
    C9_recull_after_skip_mode_ends samplePass sampleEnvSkip sampleEnvFreeze sampleState
      sampleState false (by decide) (by decide) "A" (by decide)⟩

/-- C10: for every `Prepare` in which the collection did not change (dirty flag
false and observed version equal to the cached version): every bucket of the map
has exactly one `RebuildDrawBatchesIfNeeded` call, with the shader-bindings
version observed in this `Prepare` (and no other such call is made), no
`SwapDrawItems` call is made, `GetDrawItems` is not queried, and the keys of the
map, the cached version and the dirty flag are after `Prepare` what they were
before. -/
theorem C10_unchanged_collection_validates_buckets (self : HdSt_RenderPass) (env : Env)
    (rps : HdRenderPassState) (hd : self._collectionChanged = false)
    (hv : env.collectionVersion = self._collectionVersion) :
    (∀ tag ∈ self._cmdBuffers.keys,
        (self._PrepareCommandBuffer env rps).2.count
          (Call.RebuildDrawBatchesIfNeeded tag env.shaderBindingsVersion) = 1)
      ∧ (∀ tag sbv,
          Call.RebuildDrawBatchesIfNeeded tag sbv ∈ (self._PrepareCommandBuffer env rps).2 →
            tag ∈ self._cmdBuffers.keys ∧ sbv = env.shaderBindingsVersion)
      ∧ (∀ tag items sbv,
          Call.SwapDrawItems tag items sbv ∉ (self._PrepareCommandBuffer env rps).2)
      ∧ Call.GetDrawItems ∉ (self._PrepareCommandBuffer env rps).2
      ∧ (self._PrepareCommandBuffer env rps).1._cmdBuffers.keys = self._cmdBuffers.keys
      ∧ (self._PrepareCommandBuffer env rps).1._collectionVersion = self._collectionVersion
      ∧ (self._PrepareCommandBuffer env rps).1._collectionChanged
          = self._collectionChanged := by
  have hc : collectionChanged self env = false :=
    (collectionChanged_eq_false self env).2 ⟨hd, hv.symm⟩
  have hinj : Function.Injective
      (fun tag => Call.RebuildDrawBatchesIfNeeded tag env.shaderBindingsVersion) := by
    intro a b hab; simpa using hab
  have hcount : ∀ tag ∈ self._cmdBuffers.keys, ∀ (call : TfToken → Call),
      (∀ a, call a ≠ Call.RebuildDrawBatchesIfNeeded tag env.shaderBindingsVersion) →
      (self._cmdBuffers.keys.map
          (fun tag => Call.RebuildDrawBatchesIfNeeded tag env.shaderBindingsVersion)
        ++ self._cmdBuffers.keys.map call).count
          (Call.RebuildDrawBatchesIfNeeded tag env.shaderBindingsVersion) = 1 := by
    intro tag htag call hne
    rw [List.count_append, count_map_call _ (TagMap.nodup_keys _) _ hinj tag htag,
      count_map_call_of_ne _ _ _ hne]
  cases hs : skipCulling env
  · rcases frozen_or_cull self env with hf | ⟨hf, hl⟩
    · rw [prepare_same_cull self env rps hc hs hf]
      refine ⟨fun tag htag => hcount tag htag _ (by intro a; simp), ?_, ?_, ?_, ?_, rfl, rfl⟩
      · intro tag sbv hm
        simp only [List.mem_append, List.mem_map, Call.RebuildDrawBatchesIfNeeded.injEq] at hm
        rcases hm with ⟨a, ha, h1, h2⟩ | ⟨a, _, ha⟩
        · exact ⟨h1 ▸ ha, h2.symm⟩
        · simp at ha
      · intro tag items sbv; simp
      · simp
      · simp only [TagMap.keys_mapVals]
    · rw [prepare_same_frozen self env rps hc hs hf hl]
      refine ⟨fun tag htag => count_map_call _ (TagMap.nodup_keys _) _ hinj tag htag,
        ?_, ?_, ?_, ?_, rfl, rfl⟩
      · intro tag sbv hm
        simp only [List.mem_map, Call.RebuildDrawBatchesIfNeeded.injEq] at hm
        obtain ⟨a, ha, h1, h2⟩ := hm
        exact ⟨h1 ▸ ha, h2.symm⟩
      · intro tag items sbv; simp
      · simp
      · simp only [TagMap.keys_mapVals]
  · rw [prepare_same_skip self env rps hc hs]
    refine ⟨fun tag htag => hcount tag htag _ (by intro a; simp), ?_, ?_, ?_, ?_, rfl, rfl⟩
    · intro tag sbv hm
      simp only [List.mem_append, List.mem_map, Call.RebuildDrawBatchesIfNeeded.injEq] at hm
      rcases hm with ⟨a, ha, h1, h2⟩ | ⟨a, _, ha⟩
      · exact ⟨h1 ▸ ha, h2.symm⟩
      · simp at ha
    · intro tag items sbv; simp
    · simp
    · simp only [TagMap.keys_mapVals]

/-- Witness of C10: a second frame on `samplePass` observing version 1 again. -/
theorem C10_unchanged_collection_validates_buckets_witness :
    samplePass._collectionChanged = false
      ∧ sampleEnv.collectionVersion = samplePass._collectionVersion
      ∧ Call.GetDrawItems ∉ (samplePass._PrepareCommandBuffer sampleEnv sampleState).2 :=
  ⟨by decide, by decide,
    (C10_unchanged_collection_validates_buckets samplePass sampleEnv sampleState
      (by decide) (by decide)).2.2.2.1⟩

/-- C11: for every `Prepare` in which `skipCulling` is false and the effective
`freezeCulling` is false (the toggle is off, or the collection changed, or the
skip-culling mode just changed): every bucket of the map has exactly one
`FrustumCull` call, with the cull matrix of this frame's render-pass state, and
no other `FrustumCull` call is made; nothing is asked of the previous frame's
collection or cull matrix. -/
theorem C11_active_culling_culls_every_bucket (self : HdSt_RenderPass) (env : Env)
    (rps : HdRenderPassState) (hs : skipCulling env = false)
    (hf : env.freezeCullFrustum = false ∨ collectionChanged self env = true
      ∨ skipCulling env ≠ self._lastCullingDisabledState) :
    (∀ tag ∈ (self._PrepareCommandBuffer env rps).1._cmdBuffers.keys,
        (self._PrepareCommandBuffer env rps).2.count
          (Call.FrustumCull tag rps.cullMatrix) = 1)
      ∧ (∀ tag m, Call.FrustumCull tag m ∈ (self._PrepareCommandBuffer env rps).2 →
          tag ∈ (self._PrepareCommandBuffer env rps).1._cmdBuffers.keys
            ∧ m = rps.cullMatrix) := by
  obtain ⟨pre, hpre, htr⟩ := prepare_trace_split self env rps
  rw [cullingMode_active self env hs hf] at htr
  rw [htr]
  have h := calls_of_active pre hpre env rps _
    (TagMap.nodup_keys (self._PrepareCommandBuffer env rps).1._cmdBuffers)
  exact ⟨h.1, h.2.1⟩

/-- Witness of C11: a second frame on `samplePass` with nothing changed and the
same cull matrix. -/
theorem C11_active_culling_culls_every_bucket_witness :
    skipCulling sampleEnv = false
      ∧ sampleEnv.freezeCullFrustum = false
      ∧ collectionChanged samplePass sampleEnv = false
      ∧ (samplePass._PrepareCommandBuffer sampleEnv sampleState).2.count
          (Call.FrustumCull "A" sampleState.cullMatrix) = 1 :=
  ⟨by decide, by decide, by decide,
    (C11_active_culling_culls_every_bucket samplePass sampleEnv sampleState (by decide)
      (Or.inl (by decide))).1 "A" (by decide)⟩

/-- C12: in every `Prepare` the two culling strategies never both run: no trace
holds both a `SyncDrawItemVisibility` call and a `FrustumCull` call.  The frame
has one culling mode, and its culling calls are those of the mode: in `Skip`
one `SyncDrawItemVisibility` per bucket and no `FrustumCull`, in `Active` one
`FrustumCull` per bucket and no `SyncDrawItemVisibility`, in `Frozen` neither
call on any bucket. -/
theorem C12_culling_strategies_exclusive (self : HdSt_RenderPass) (env : Env)
    (rps : HdRenderPassState) :
    ¬ ((∃ tag n, Call.SyncDrawItemVisibility tag n ∈ (self._PrepareCommandBuffer env rps).2)
        ∧ (∃ tag m, Call.FrustumCull tag m ∈ (self._PrepareCommandBuffer env rps).2))
      ∧ (match cullingMode self env with
          | CullingMode.Skip =>
            (∀ tag ∈ (self._PrepareCommandBuffer env rps).1._cmdBuffers.keys,
              (self._PrepareCommandBuffer env rps).2.count
                (Call.SyncDrawItemVisibility tag env.visibilityChangeCount) = 1)
            ∧ (∀ tag m, Call.FrustumCull tag m ∉ (self._PrepareCommandBuffer env rps).2)
          | CullingMode.Active =>
            (∀ tag ∈ (self._PrepareCommandBuffer env rps).1._cmdBuffers.keys,
              (self._PrepareCommandBuffer env rps).2.count
                (Call.FrustumCull tag rps.cullMatrix) = 1)
            ∧ (∀ tag n,
                Call.SyncDrawItemVisibility tag n ∉ (self._PrepareCommandBuffer env rps).2)
          | CullingMode.Frozen =>
            (∀ tag n,
                Call.SyncDrawItemVisibility tag n ∉ (self._PrepareCommandBuffer env rps).2)
            ∧ (∀ tag m, Call.FrustumCull tag m ∉ (self._PrepareCommandBuffer env rps).2)) := by
  obtain ⟨pre, hpre, htr⟩ := prepare_trace_split self env rps
  have hnd := TagMap.nodup_keys (self._PrepareCommandBuffer env rps).1._cmdBuffers
  cases hm : cullingMode self env
  · -- Skip
    rw [hm] at htr
    have h := calls_of_skip pre hpre env rps _ hnd
    rw [← htr] at h
    refine ⟨?_, h⟩
    rintro ⟨_, tag, m, hfc⟩
    exact h.2 tag m hfc
  · -- Frozen
    rw [hm] at htr
    have h := calls_of_frozen pre hpre env rps
      (self._PrepareCommandBuffer env rps).1._cmdBuffers.keys
    rw [← htr] at h
    have hsync : ∀ tag n,
        Call.SyncDrawItemVisibility tag n ∉ (self._PrepareCommandBuffer env rps).2 :=
      fun tag n hmem => absurd (h _ hmem) (by simp [isCullingCall])
    have hfc : ∀ tag m, Call.FrustumCull tag m ∉ (self._PrepareCommandBuffer env rps).2 :=
      fun tag m hmem => absurd (h _ hmem) (by simp [isCullingCall])
    refine ⟨?_, hsync, hfc⟩
    rintro ⟨_, tag, m, hmem⟩
    exact hfc tag m hmem
  · -- Active
    rw [hm] at htr
    have h := calls_of_active pre hpre env rps _ hnd
    rw [← htr] at h
    refine ⟨?_, h.1, h.2.2⟩
    rintro ⟨⟨tag, n, hmem⟩, _⟩
    exact h.2.2 tag n hmem

/-- Counterexample to C13 as stated: the view maps the tag `A` to no item, so
the query yields zero draw items in total; the `Prepare` of a new render pass
rebuilds, yet the map then has the key `A`, the culling phase calls
`FrustumCull` on that bucket and the draw phase calls `PrepareDraw` and
`ExecuteDraw` on it. -/
theorem C13_empty_tag_still_gets_bucket :
    rebuilds (HdSt_RenderPass.new._PrepareCommandBuffer emptyTagEnv sampleState).2 = true
      ∧ viewItemCount emptyTagEnv.drawItems = 0
      ∧ (HdSt_RenderPass.new._PrepareCommandBuffer emptyTagEnv sampleState).1._cmdBuffers.keys
          = ["A"]
      ∧ Call.FrustumCull "A" sampleState.cullMatrix
          ∈ (HdSt_RenderPass.new._PrepareCommandBuffer emptyTagEnv sampleState).2
      ∧ Call.PrepareDraw "A" sampleState
          ∈ (HdSt_RenderPass.new._Execute emptyTagEnv sampleState []).2
      ∧ Call.ExecuteDraw "A" sampleState
          ∈ (HdSt_RenderPass.new._Execute emptyTagEnv sampleState []).2 := by
  decide

/-- C13, amended: for every `Prepare` that rebuilds from a source query yielding
no render tag at all, the command-buffer map is empty afterwards and, whatever
the filter, `_Execute` makes no `SyncDrawItemVisibility`, `FrustumCull`,
`PrepareDraw` or `ExecuteDraw` call in that frame. -/
theorem C13_no_tag_gives_empty_map (self : HdSt_RenderPass) (env : Env)
    (rps : HdRenderPassState) (renderTags : List TfToken)
    (h : rebuilds (self._PrepareCommandBuffer env rps).2 = true)
    (h0 : env.drawItems.keys = []) :
    (self._PrepareCommandBuffer env rps).1._cmdBuffers.keys = []
      ∧ (self._PrepareCommandBuffer env rps).1._cmdBuffers.entries = []
      ∧ (∀ c ∈ (self._Execute env rps renderTags).2, isCullOrDrawCall c = false) := by
  rw [rebuilds_prepare] at h
  have hk : (self._PrepareCommandBuffer env rps).1._cmdBuffers.keys = [] := by
    rw [prepare_rebuild_keys self env rps h, h0]
  have he : (self._PrepareCommandBuffer env rps).1._cmdBuffers.entries = [] := by
    simpa [TagMap.keys] using hk
  refine ⟨hk, he, ?_⟩
  intro c hmem
  simp only [_Execute, drawPhase_trace_of_no_key _ rps renderTags hk,
    List.append_nil] at hmem
  have h0e : env.drawItems.entries = [] := by simpa [TagMap.keys] using h0
  cases hs : skipCulling env
  · rw [prepare_changed_cull self env rps h hs] at hmem
    simp only [h0e, swapLoop, TagMap.keys, TagMap.empty, List.map_nil, List.append_nil,
      List.cons_append, List.nil_append, List.mem_cons, List.not_mem_nil, or_false] at hmem
    rcases hmem with rfl | rfl | rfl | rfl <;> rfl
  · rw [prepare_changed_skip self env rps h hs] at hmem
    simp only [h0e, swapLoop, TagMap.keys, TagMap.empty, List.map_nil, List.append_nil,
      List.cons_append, List.nil_append, List.mem_cons, List.not_mem_nil, or_false] at hmem
    rcases hmem with rfl | rfl | rfl | rfl <;> rfl

/-- Witness of C13, amended: the first frame of a new render pass whose collection
yields no tag. -/
theorem C13_no_tag_gives_empty_map_witness :
    rebuilds (HdSt_RenderPass.new._PrepareCommandBuffer noTagEnv sampleState).2 = true
      ∧ noTagEnv.drawItems.keys = []
      ∧ (HdSt_RenderPass.new._PrepareCommandBuffer noTagEnv sampleState).1._cmdBuffers.entries
          = [] :=
  ⟨by decide, by decide,
    (C13_no_tag_gives_empty_map HdSt_RenderPass.new noTagEnv sampleState ["A"]
      (by decide) (by decide)).2.1⟩

/-- C14: the scenario of three consecutive `Prepare`s on a render pass with cached
version 1 and dirty flag false, observing versions 1, 1 and 2, where the query at
version 2 returns, up to order, the per-tag items the map holds plus one item
under the new tag `glass`.  Frames 1 and 2 do not rebuild and leave the items of
every bucket as they were; frame 3 rebuilds, the map, which had no `glass` key,
gets a bucket `glass` with item count 1, the total item count is one more than
before, and under every other tag the bucket holds the items it held before. -/
theorem C14_glass_scenario (self : HdSt_RenderPass) (env1 env2 env3 : Env)
    (rps1 rps2 rps3 : HdRenderPassState) (g : HdDrawItem)
    (hver : self._collectionVersion = 1) (hflag : self._collectionChanged = false)
    (h1 : env1.collectionVersion = 1) (h2 : env2.collectionVersion = 1)
    (h3 : env3.collectionVersion = 2)
    (hview : env3.drawItems.entries.Perm
      (("glass", [g]) :: self._cmdBuffers.entries.map (fun e => (e.1, e.2.drawItems)))) :
    rebuilds (self._PrepareCommandBuffer env1 rps1).2 = false
      ∧ rebuilds ((self._PrepareCommandBuffer env1 rps1).1._PrepareCommandBuffer
          env2 rps2).2 = false
      ∧ ((self._PrepareCommandBuffer env1 rps1).1._PrepareCommandBuffer
            env2 rps2).1._cmdBuffers.entries.map (fun e => (e.1, e.2.drawItems))
          = self._cmdBuffers.entries.map (fun e => (e.1, e.2.drawItems))
      ∧ rebuilds (((self._PrepareCommandBuffer env1 rps1).1._PrepareCommandBuffer
          env2 rps2).1._PrepareCommandBuffer env3 rps3).2 = true
      ∧ "glass" ∉ self._cmdBuffers.keys
      ∧ ((((self._PrepareCommandBuffer env1 rps1).1._PrepareCommandBuffer
            env2 rps2).1._PrepareCommandBuffer env3 rps3).1._cmdBuffers.find? "glass").map
          HdCommandBuffer.GetTotalSize = some 1
      ∧ totalSize (((self._PrepareCommandBuffer env1 rps1).1._PrepareCommandBuffer
            env2 rps2).1._PrepareCommandBuffer env3 rps3).1._cmdBuffers
          = totalSize self._cmdBuffers + 1
      ∧ (∀ tag, tag ≠ "glass" →
          ((((self._PrepareCommandBuffer env1 rps1).1._PrepareCommandBuffer
              env2 rps2).1._PrepareCommandBuffer env3 rps3).1._cmdBuffers.find? tag).map
            HdCommandBuffer.drawItems
          = (self._cmdBuffers.find? tag).map HdCommandBuffer.drawItems) := by
  have hc1 : collectionChanged self env1 = false :=
    (collectionChanged_eq_false self env1).2 ⟨hflag, hver.trans h1.symm⟩
  have hc2 : collectionChanged (self._PrepareCommandBuffer env1 rps1).1 env2 = false := by
    rw [collectionChanged_eq_false, prepare_collectionChanged, prepare_collectionVersion]
    exact ⟨rfl, h1.trans h2.symm⟩
  have hc3 : collectionChanged ((self._PrepareCommandBuffer env1 rps1).1._PrepareCommandBuffer
      env2 rps2).1 env3 = true := by
    simp [collectionChanged, prepare_collectionVersion, h2, h3]
  have hnd : ((("glass", [g]) :: self._cmdBuffers.entries.map
      (fun e => (e.1, e.2.drawItems))).map Prod.fst).Nodup :=
    ((hview.map Prod.fst).nodup_iff).1 env3.drawItems.nodup
  have hkeys : (self._cmdBuffers.entries.map (fun e => (e.1, e.2.drawItems))).map Prod.fst
      = self._cmdBuffers.keys := by
    simp [TagMap.keys, Function.comp_def]
  have hglass : env3.drawItems.find? "glass" = some [g] :=
    TagMap.lookup_of_mem _ env3.drawItems.nodup _ _
      (hview.mem_iff.2 (List.mem_cons_self _ _))
  have hfind := prepare_rebuild_find ((self._PrepareCommandBuffer env1 rps1).1._PrepareCommandBuffer
      env2 rps2).1 env3 rps3 hc3
  refine ⟨?_, ?_, ?_, ?_, ?_, ?_, ?_, ?_⟩
  · rw [rebuilds_prepare, hc1]
  · rw [rebuilds_prepare, hc2]
  · rw [prepare_same_drawItems _ env2 rps2 hc2, prepare_same_drawItems _ env1 rps1 hc1]
  · rw [rebuilds_prepare, hc3]
  · rw [List.map_cons, List.nodup_cons, hkeys] at hnd
    exact hnd.1
  · have hf := hfind "glass"
    rw [hglass] at hf
    cases hb : TagMap.find? (((self._PrepareCommandBuffer env1 rps1).1._PrepareCommandBuffer
        env2 rps2).1._PrepareCommandBuffer env3 rps3).1._cmdBuffers "glass" with
    | none => rw [hb] at hf; simp at hf
    | some b =>
      rw [hb] at hf
      simp only [Option.map_some', Option.some.injEq] at hf
      simp [HdCommandBuffer.GetTotalSize, hf]
  · rw [prepare_rebuild_totalSize _ env3 rps3 hc3]
    unfold viewItemCount
    rw [(hview.map (fun e => e.2.length)).sum_eq]
    simp [totalSize, HdCommandBuffer.GetTotalSize, Function.comp_def, Nat.add_comm]
  · intro tag htag
    rw [hfind tag]
    unfold TagMap.find?
    rw [TagMap.lookup_perm _ _ hview env3.drawItems.nodup tag]
    have hne : (tag == "glass") = false := by simpa using htag
    simp only [List.lookup, hne]
    exact TagMap.lookup_map_snd self._cmdBuffers.entries HdCommandBuffer.drawItems tag

/-- Witness of C14: `samplePass` (buckets `A` and `B`, built at version 1), two
frames at version 1 and one at version 2 with `glassView`. -/
theorem C14_glass_scenario_witness :
    samplePass._collectionVersion = 1 ∧ samplePass._collectionChanged = false
      ∧ sampleEnv.collectionVersion = 1 ∧ glassEnv.collectionVersion = 2
      ∧ glassEnv.drawItems.entries.Perm
          (("glass", [9]) :: samplePass._cmdBuffers.entries.map (fun e => (e.1, e.2.drawItems)))
      ∧ totalSize (((samplePass._PrepareCommandBuffer sampleEnv sampleState).1._PrepareCommandBuffer
            sampleEnv sampleState).1._PrepareCommandBuffer glassEnv sampleState).1._cmdBuffers
          = totalSize samplePass._cmdBuffers + 1 :=
  ⟨by decide, by decide, by decide, by decide, by decide,
    (C14_glass_scenario samplePass sampleEnv sampleEnv glassEnv sampleState sampleState
      sampleState 9 (by decide) (by decide) (by decide) (by decide) (by decide)
      (by decide)).2.2.2.2.2.2.1⟩

/-- C15: for every combination of the inputs and every prior render pass,
`Prepare` persists as `_lastCullingDisabledState` the value
`forceDisableCulling OR (indirectMultiDrawAvailable AND gpuCullingEnabled)`, in
every branch, and that value is the `skipCulling` it acts on: a bucket of the
resulting map gets its `SyncDrawItemVisibility` call exactly when the value is
true. -/
theorem C15_skip_culling_value_persisted (self : HdSt_RenderPass) (env : Env)
    (rps : HdRenderPassState) :
    (self._PrepareCommandBuffer env rps).1._lastCullingDisabledState
        = (env.disableFrustumCulling
            || (env.multiDrawIndirectEnabled && env.gpuFrustumCulling))
      ∧ (∀ tag ∈ (self._PrepareCommandBuffer env rps).1._cmdBuffers.keys,
          (Call.SyncDrawItemVisibility tag env.visibilityChangeCount
              ∈ (self._PrepareCommandBuffer env rps).2
            ↔ (env.disableFrustumCulling
                || (env.multiDrawIndirectEnabled && env.gpuFrustumCulling)) = true)) := by
  refine ⟨prepare_lastCullingDisabledState self env rps, ?_⟩
  intro tag htag
  have hexpr : (env.disableFrustumCulling
      || (env.multiDrawIndirectEnabled && env.gpuFrustumCulling)) = skipCulling env := rfl
  rw [hexpr]
  cases hs : skipCulling env
  · simp only [Bool.false_eq_true, iff_false]
    exact prepare_no_sync_of_not_skip self env rps hs tag _
  · simp only [iff_true]
    obtain ⟨pre, hpre, htr⟩ := prepare_trace_split self env rps
    rw [(cullingMode_skip_iff self env).2 hs] at htr
    rw [htr]
    apply List.mem_append_right
    exact List.mem_map_of_mem _ htag

/-- C16: for every `Prepare` in which the collection changed and `skipCulling` is
false, whatever the freeze-culling toggle: every bucket of the rebuilt map has
exactly one `FrustumCull` call in that same `Prepare`, and every
`SwapDrawItems` call comes earlier in the trace than every `FrustumCull` call. -/
theorem C16_rebuilt_buckets_culled_after_swap (self : HdSt_RenderPass) (env : Env)
    (rps : HdRenderPassState) (hc : collectionChanged self env = true)
    (hs : skipCulling env = false) :
    (∀ tag ∈ (self._PrepareCommandBuffer env rps).1._cmdBuffers.keys,
        (self._PrepareCommandBuffer env rps).2.count
          (Call.FrustumCull tag rps.cullMatrix) = 1)
      ∧ (∀ (i j : Nat) tag items sbv tag2 m,
          (self._PrepareCommandBuffer env rps).2[i]? = some (Call.SwapDrawItems tag items sbv) →
          (self._PrepareCommandBuffer env rps).2[j]? = some (Call.FrustumCull tag2 m) →
          i < j) := by
  obtain ⟨pre, hpre, htr⟩ := prepare_trace_split self env rps
  rw [cullingMode_active self env hs (Or.inr (Or.inl hc))] at htr
  rw [htr]
  refine ⟨(calls_of_active pre hpre env rps _ (TagMap.nodup_keys _)).1, ?_⟩
  intro i j tag items sbv tag2 m hi hj
  apply index_lt_of_split pre _ i j _ _ hi hj
  · simp [cullCalls]
  · intro hmem
    exact absurd (hpre _ hmem) (by simp [isCullingCall])

/-- Witness of C16: the first frame of a new render pass with the freeze toggle
on. -/
theorem C16_rebuilt_buckets_culled_after_swap_witness :
    collectionChanged HdSt_RenderPass.new sampleEnvFreeze = true
      ∧ skipCulling sampleEnvFreeze = false
      ∧ sampleEnvFreeze.freezeCullFrustum = true
      ∧ (HdSt_RenderPass.new._PrepareCommandBuffer sampleEnvFreeze sampleState).2.count
          (Call.FrustumCull "B" sampleState.cullMatrix) = 1 :=
  ⟨by decide, by decide, by decide,
    (C16_rebuilt_buckets_culled_after_swap HdSt_RenderPass.new sampleEnvFreeze sampleState
      (by decide) (by decide)).1 "B" (by decide)⟩

/-- C17: for every prior render pass and every observed collection version,
after `Prepare` the cached collection version is the observed one and the
collection-changed flag is false, rebuild or not; so a second `Prepare`
observing the same version, with no `_MarkCollectionDirty` in between, does not
rebuild. -/
theorem C17_prepare_caches_observed_version (self : HdSt_RenderPass) (env env2 : Env)
    (rps rps2 : HdRenderPassState) :
    (self._PrepareCommandBuffer env rps).1._collectionVersion = env.collectionVersion
      ∧ (self._PrepareCommandBuffer env rps).1._collectionChanged = false
      ∧ (env2.collectionVersion = env.collectionVersion →
          rebuilds ((self._PrepareCommandBuffer env rps).1._PrepareCommandBuffer
            env2 rps2).2 = false) := by
  refine ⟨prepare_collectionVersion self env rps, prepare_collectionChanged self env rps, ?_⟩
  intro hv
  rw [rebuilds_prepare, collectionChanged_eq_false, prepare_collectionChanged,
    prepare_collectionVersion]
  exact ⟨rfl, hv.symm⟩

/-- Witness of C17: two frames in `sampleEnv` on a new render pass. -/
theorem C17_prepare_caches_observed_version_witness :
    sampleEnv.collectionVersion = sampleEnv.collectionVersion
      ∧ rebuilds ((HdSt_RenderPass.new._PrepareCommandBuffer sampleEnv
          sampleState).1._PrepareCommandBuffer sampleEnv sampleState).2 = false :=
  ⟨rfl,
    (C17_prepare_caches_observed_version HdSt_RenderPass.new sampleEnv sampleEnv
      sampleState sampleState).2.2 rfl⟩

/-- C18: on a freshly constructed render pass on which `_MarkCollectionDirty`
was not called, the first `Prepare` rebuilds the map from the view of its frame
(clears it, queries `GetDrawItems`, swaps the items of every tag in and leaves
the map holding exactly the view's tags and items) if and only if the observed
collection version is not 0; when it is 0 the map stays empty and `_Execute`
makes no call at all, so draws nothing, whatever `GetDrawItems` would return and
whatever the filter. -/
theorem C18_new_pass_rebuilds_iff_version_nonzero (env : Env) (rps : HdRenderPassState)
    (renderTags : List TfToken) :
    (rebuiltFrom env.drawItems env.shaderBindingsVersion
          (HdSt_RenderPass.new._PrepareCommandBuffer env rps)
        ↔ env.collectionVersion ≠ 0)
      ∧ (rebuilds (HdSt_RenderPass.new._PrepareCommandBuffer env rps).2 = true
        ↔ env.collectionVersion ≠ 0)
      ∧ (env.collectionVersion = 0 →
          (HdSt_RenderPass.new._Execute env rps renderTags).1._cmdBuffers.entries = []
            ∧ (HdSt_RenderPass.new._Execute env rps renderTags).2 = []) := by
  have hiff : collectionChanged HdSt_RenderPass.new env = true ↔ env.collectionVersion ≠ 0 := by
    simp only [collectionChanged, HdSt_RenderPass.new, Bool.false_or, bne_iff_ne, ne_eq]
    exact ⟨fun h hh => h hh.symm, fun h hh => h hh.symm⟩
  refine ⟨?_, ?_, ?_⟩
  · rw [rebuiltFrom_prepare_iff]
    exact hiff
  · rw [rebuilds_prepare]
    exact hiff
  · intro hv
    have hc : collectionChanged HdSt_RenderPass.new env = false := by
      simp [collectionChanged, HdSt_RenderPass.new, hv]
    have hk : (HdSt_RenderPass.new._PrepareCommandBuffer env rps).1._cmdBuffers.keys = [] := by
      rw [prepare_same_keys _ env rps hc]; rfl
    have htr : (HdSt_RenderPass.new._PrepareCommandBuffer env rps).2 = [] := by
      cases hs : skipCulling env
      · rcases frozen_or_cull HdSt_RenderPass.new env with hf | ⟨hf, hl⟩
        · rw [prepare_same_cull _ env rps hc hs hf]; rfl
        · rw [prepare_same_frozen _ env rps hc hs hf hl]; rfl
      · rw [prepare_same_skip _ env rps hc hs]; rfl
    constructor
    · have hk2 := drawPhase_keys (HdSt_RenderPass.new._PrepareCommandBuffer env rps).1
        rps renderTags
      rw [hk] at hk2
      simpa [_Execute, TagMap.keys] using hk2
    · simp only [_Execute, htr, List.nil_append]
      exact drawPhase_trace_of_no_key _ rps renderTags hk

/-- Witness of C18: a new render pass observing version 0 while the collection
holds items under `A` and `B` makes no call; observing version 1 it rebuilds the
map from the view. -/
theorem C18_new_pass_rebuilds_iff_version_nonzero_witness :
    sampleEnvZero.collectionVersion = 0
      ∧ sampleEnvZero.drawItems.keys = ["A", "B"]
      ∧ (HdSt_RenderPass.new._Execute sampleEnvZero sampleState []).2 = []
      ∧ sampleEnv.collectionVersion ≠ 0
      ∧ rebuiltFrom sampleEnv.drawItems sampleEnv.shaderBindingsVersion
          (HdSt_RenderPass.new._PrepareCommandBuffer sampleEnv sampleState) :=
  ⟨by decide, by decide,
    ((C18_new_pass_rebuilds_iff_version_nonzero sampleEnvZero sampleState []).2.2
      (by decide)).2,
    by decide,
    (C18_new_pass_rebuilds_iff_version_nonzero sampleEnv sampleState []).1.2 (by decide)⟩

/-- C19: for every filter list, empty or not and whatever tags it names, the
part of `_Execute` after `_PrepareCommandBuffer` leaves the keys of the
command-buffer map, the cached collection version, the collection-changed flag
and `_lastCullingDisabledState` as they are; no key is inserted for a tag that
is absent from the map.  So after `_Execute` these are what `Prepare` left. -/
theorem C19_draw_phase_keeps_keys_and_members (self : HdSt_RenderPass) (env : Env)
    (rps : HdRenderPassState) (renderTags : List TfToken) :
    (self.drawPhase rps renderTags).1._cmdBuffers.keys = self._cmdBuffers.keys
      ∧ (self.drawPhase rps renderTags).1._collectionVersion = self._collectionVersion
      ∧ (self.drawPhase rps renderTags).1._collectionChanged = self._collectionChanged
      ∧ (self.drawPhase rps renderTags).1._lastCullingDisabledState
          = self._lastCullingDisabledState
      ∧ (self._Execute env rps renderTags).1._cmdBuffers.keys
          = (self._PrepareCommandBuffer env rps).1._cmdBuffers.keys
      ∧ (self._Execute env rps renderTags).1._collectionVersion
          = (self._PrepareCommandBuffer env rps).1._collectionVersion
      ∧ (self._Execute env rps renderTags).1._collectionChanged
          = (self._PrepareCommandBuffer env rps).1._collectionChanged
      ∧ (self._Execute env rps renderTags).1._lastCullingDisabledState
          = (self._PrepareCommandBuffer env rps).1._lastCullingDisabledState :=
  ⟨drawPhase_keys self rps renderTags, rfl, rfl, rfl,
    drawPhase_keys (self._PrepareCommandBuffer env rps).1 rps renderTags, rfl, rfl, rfl⟩

end HdSt
